import Mathlib

/-!
Verification development for the qlever-proxy HTTP reverse proxy
(src/qlever-proxy.py).  Python strings are modelled as lists of Unicode
code points (`Str := List Char`), which matches Python's `str` indexing
and slicing semantics.  Stateful code is modelled by explicit state
passing; code that can raise returns `Except PyErr`.
-/

namespace QleverProxy

/-- Python `str` is a sequence of Unicode code points. -/
abbrev Str := List Char

/-- Convert a Lean string literal to the `Str` model. -/
def str (s : String) : Str := s.data

/-- Exceptions that the modelled Python code can raise. -/
inductive PyErr
  | assertionError
  | indexError
  | reError
  | unicodeDecodeError
  | nameError
  deriving DecidableEq, Repr

/-- Decidable equality for `Except` values, so that concrete runs of the
model can be evaluated with `decide`. -/
instance {ε α : Type} [DecidableEq ε] [DecidableEq α] : DecidableEq (Except ε α) := fun x y =>
  match x, y with
  | .ok a, .ok b =>
    if h : a = b then .isTrue (by rw [h])
    else .isFalse (by intro hc; injection hc; contradiction)
  | .error a, .error b =>
    if h : a = b then .isTrue (by rw [h])
    else .isFalse (by intro hc; injection hc; contradiction)
  | .ok _, .error _ => .isFalse (by intro hc; exact Except.noConfusion hc)
  | .error _, .ok _ => .isFalse (by intro hc; exact Except.noConfusion hc)

/-- The whitespace class of Python's `\s` (ASCII part; the queries and
configuration strings handled by the proxy are ASCII). -/
def pyIsSpace (c : Char) : Bool :=
  c = ' ' || c = '\t' || c = '\n' || c = '\x0d' || c = '\x0b' || c = '\x0c'

/-- Word characters for Python's `\b` and `\w` (ASCII part). -/
def pyIsWord (c : Char) : Bool :=
  (c ≥ 'a' && c ≤ 'z') || (c ≥ 'A' && c ≤ 'Z') || (c ≥ '0' && c ≤ '9') || c = '_'

/-- Helper for `collapseWs`: the flag records whether we are inside a
whitespace run that has already emitted its single space. -/
def collapseWsAux : Bool → Str → Str
  | _, [] => []
  | inRun, c :: rest =>
    if pyIsSpace c then
      if inRun then collapseWsAux true rest
      else ' ' :: collapseWsAux true rest
    else c :: collapseWsAux false rest

/-- Python's `re.sub("\s+", " ", s)`: replace every maximal run of
whitespace by a single space. -/
def collapseWs (s : Str) : Str := collapseWsAux false s

/-- Strip leading whitespace. -/
def lstripWs (s : Str) : Str := s.dropWhile pyIsSpace

/-- Strip trailing whitespace. -/
def rstripWs (s : Str) : Str := (s.reverse.dropWhile pyIsSpace).reverse

/-- Strip both ends. -/
def stripWs (s : Str) : Str := rstripWs (lstripWs s)

/-- Python's `s.split()`: split on whitespace runs, dropping empties. -/
def splitWsAux : Str → Str → List Str
  | acc, [] => if acc = [] then [] else [acc.reverse]
  | acc, c :: rest =>
    if pyIsSpace c then
      if acc = [] then splitWsAux [] rest
      else acc.reverse :: splitWsAux [] rest
    else splitWsAux (c :: acc) rest

/-- Python's `s.split()` (no argument form). -/
def splitWs (s : Str) : List Str := splitWsAux [] s

/-- Python's `list.insert(i, x)` with its clamping semantics: a negative
index counts from the end and is clamped at 0, a too-large index appends. -/
def pyInsert (l : List Str) (i : Int) (x : Str) : List Str :=
  let j : Nat :=
    if i < 0 then ((l.length : Int) + i).toNat
    else min i.toNat l.length
  l.insertIdx j x

/-- Python's `l[i] = x`: raises `IndexError` when `i` is out of range
(only nonnegative indices occur in the modelled code). -/
def pySetIdx (l : List Str) (i : Nat) (x : Str) : Except PyErr (List Str) :=
  if i < l.length then .ok (l.set i x) else .error .indexError

/-! ## A small regex engine

The source builds regular expressions dynamically (from variable names and
configured predicates) and hands them to Python's `re` module.  We model the
fragment of `re` that those patterns can use: literals, `.`, escapes
(`\s \S \d \D \w \W \b` and punctuation escapes), bracket classes, groups,
alternation and the greedy quantifiers `+ * ?`.  Pattern strings using
constructs outside this fragment fail to compile (`none`), which the callers
treat like `re.error`. -/

/-- One item of a bracket character class. -/
inductive ClsItem
  | single (c : Char)
  | range (lo hi : Char)
  | perlS
  | perlD
  | perlW
  deriving DecidableEq, Repr

/-- Regular expressions (the fragment used by the proxy's patterns).
Quantifiers are greedy, alternation prefers the left branch, as in `re`. -/
inductive RE
  | eps
  | lit (c : Char)
  | dot
  | cls (neg : Bool) (items : List ClsItem)
  | seq (a b : RE)
  | alt (a b : RE)
  | star (a : RE)
  | plus (a : RE)
  | opt (a : RE)
  | wordB
  deriving DecidableEq, Repr

/-- Does character `c` belong to the (possibly negated) class? -/
def clsMatch (neg : Bool) (items : List ClsItem) (c : Char) : Bool :=
  let m := items.any fun it =>
    match it with
    | .single d => c = d
    | .range lo hi => lo ≤ c && c ≤ hi
    | .perlS => pyIsSpace c
    | .perlD => c.isDigit
    | .perlW => pyIsWord c
  if neg then !m else m

/-- The regex atom denoted by an escape `\c` outside a class
(`none` models `re.error` for reserved escapes). -/
def escAtom (c : Char) : Option RE :=
  if c = 's' then some (RE.cls false [.perlS])
  else if c = 'S' then some (RE.cls true [.perlS])
  else if c = 'd' then some (RE.cls false [.perlD])
  else if c = 'D' then some (RE.cls true [.perlD])
  else if c = 'w' then some (RE.cls false [.perlW])
  else if c = 'W' then some (RE.cls true [.perlW])
  else if c = 'b' then some RE.wordB
  else if c = 'n' then some (RE.lit '\n')
  else if c = 't' then some (RE.lit '\t')
  else if c = 'r' then some (RE.lit '\x0d')
  else if pyIsWord c then none
  else some (RE.lit c)

/-- The class item denoted by an escape `\c` inside a bracket class. -/
def escClsItem (c : Char) : Option ClsItem :=
  if c = 's' then some .perlS
  else if c = 'd' then some .perlD
  else if c = 'w' then some .perlW
  else if c = 'n' then some (.single '\n')
  else if c = 't' then some (.single '\t')
  else if c = 'r' then some (.single '\x0d')
  else if pyIsWord c then none
  else some (.single c)

/-- Parse the body of a bracket class (after `[` and an optional `^`),
up to the closing `]`.  `first` is true before the first item so that a
leading `]` is taken literally, as in `re`.  Fueled so that recursion is
structural and the kernel can evaluate it. -/
def parseClsBody : Nat → Str → Bool → List ClsItem → Option (List ClsItem × Str)
  | 0, _, _, _ => none
  | _ + 1, [], _, _ => none
  | n + 1, ']' :: rest, first, acc =>
    if first then parseClsBody n rest false (.single ']' :: acc)
    else some (acc.reverse, rest)
  | n + 1, '\\' :: c :: rest, _, acc =>
    match escClsItem c with
    | some it =>
      match rest with
      | '-' :: d :: rest2 =>
        if d = ']' then parseClsBody n (d :: rest2) false (.single '-' :: it :: acc)
        else none
      | _ => parseClsBody n rest false (it :: acc)
    | none => none
  | n + 1, c :: '-' :: d :: rest, _, acc =>
    if d = ']' then parseClsBody n ('-' :: d :: rest) false (.single c :: acc)
    else if c = '\\' then none
    else if d = '\\' then none
    else if c ≤ d then parseClsBody n rest false (.range c d :: acc)
    else none
  | n + 1, c :: rest, _, acc =>
    if c = '\\' then none else parseClsBody n rest false (.single c :: acc)

/-- Parse a bracket class starting just after the `[`. -/
def parseCls (s : Str) : Option (RE × Str) :=
  match s with
  | '^' :: rest =>
    (parseClsBody (rest.length + 1) rest true []).map fun (items, r) => (RE.cls true items, r)
  | _ =>
    (parseClsBody (s.length + 1) s true []).map fun (items, r) => (RE.cls false items, r)

/-- Productions of the pattern grammar. -/
inductive PMode
  | palt
  | pseq
  | pterm
  | patom
  deriving DecidableEq, Repr

/-- Fueled recursive-descent pattern compiler (single recursion on fuel so
that the kernel can evaluate it).  Returns the parsed regex and the rest of
the pattern; `none` models `re.error` (or a construct outside the modelled
fragment, which the development treats conservatively as an error). -/
def parseRE : Nat → PMode → Str → Option (RE × Str)
  | 0, _, _ => none
  | n + 1, .palt, s => do
    let (a, r) ← parseRE n .pseq s
    match r with
    | '|' :: r2 => do
      let (b, r3) ← parseRE n .palt r2
      pure (RE.alt a b, r3)
    | _ => pure (a, r)
  | n + 1, .pseq, s =>
    match s with
    | [] => some (RE.eps, [])
    | '|' :: _ => some (RE.eps, s)
    | ')' :: _ => some (RE.eps, s)
    | _ => do
      let (t, r) ← parseRE n .pterm s
      let (ts, r2) ← parseRE n .pseq r
      pure (RE.seq t ts, r2)
  | n + 1, .pterm, s => do
    let (a, r) ← parseRE n .patom s
    match r with
    | '+' :: r2 => pure (RE.plus a, r2)
    | '*' :: r2 => pure (RE.star a, r2)
    | '?' :: r2 => pure (RE.opt a, r2)
    | _ => pure (a, r)
  | n + 1, .patom, s =>
    match s with
    | '(' :: '?' :: _ => none
    | '(' :: r => do
      let (a, r2) ← parseRE n .palt r
      match r2 with
      | ')' :: r3 => pure (a, r3)
      | _ => none
    | '[' :: r => parseCls r
    | '.' :: r => some (RE.dot, r)
    | '\\' :: c :: r => (escAtom c).map (·, r)
    | '\\' :: [] => none
    | ')' :: _ => none
    | '|' :: _ => none
    | '+' :: _ => none
    | '*' :: _ => none
    | '?' :: _ => none
    | '^' :: _ => none
    | '$' :: _ => none
    | c :: r => some (RE.lit c, r)
    | [] => none

/-- Compile a whole pattern string; `none` models `re.error`. -/
def recompile (p : Str) : Option RE :=
  match parseRE (4 * p.length + 8) .palt p with
  | some (r, []) => some r
  | _ => none

/-- Node count of a regex, used to size the matcher fuel. -/
def sizeRE : RE → Nat
  | .eps | .lit _ | .dot | .cls _ _ | .wordB => 1
  | .seq a b | .alt a b => sizeRE a + sizeRE b + 1
  | .star a | .plus a | .opt a => sizeRE a + 1

/-- Backtracking matcher in continuation style, reproducing `re`'s
priority order (left alternative first, greedy quantifiers).  `prev` is the
character just before the current position (for `\b`); the continuation
receives the updated `prev` and the rest of the input; the result is the
rest of the input after the overall match, `none` if there is no match.
The fuel bounds the backtracking depth; `matchFuel` below is enough for
every pattern the proxy builds (their quantifiers consume at least one
character per repetition). -/
def mrun : Nat → RE → Option Char → Str → (Option Char → Str → Option Str) → Option Str
  | 0, _, _, _, _ => none
  | n + 1, re, prev, s, k =>
    match re with
    | .eps => k prev s
    | .lit c =>
      match s with
      | [] => none
      | x :: xs => if x = c then k (some x) xs else none
    | .dot =>
      match s with
      | [] => none
      | x :: xs => if x = '\n' then none else k (some x) xs
    | .cls neg items =>
      match s with
      | [] => none
      | x :: xs => if clsMatch neg items x then k (some x) xs else none
    | .seq a b => mrun n a prev s fun p2 s2 => mrun n b p2 s2 k
    | .alt a b =>
      match mrun n a prev s k with
      | some r => some r
      | none => mrun n b prev s k
    | .star a =>
      match mrun n a prev s (fun p2 s2 => mrun n (.star a) p2 s2 k) with
      | some r => some r
      | none => k prev s
    | .plus a => mrun n a prev s fun p2 s2 => mrun n (.star a) p2 s2 k
    | .opt a =>
      match mrun n a prev s k with
      | some r => some r
      | none => k prev s
    | .wordB =>
      let lw := match prev with | none => false | some c => pyIsWord c
      let rw := match s with | [] => false | c :: _ => pyIsWord c
      if lw ≠ rw then k prev s else none

/-- Fuel that bounds the backtracking depth of `mrun` for the patterns at
hand. -/
def matchFuel (re : RE) (len : Nat) : Nat :=
  (sizeRE re + 2) * (len + 2) + 2

/-- Try to match `re` starting exactly at the current position; returns the
rest of the input after the match. -/
def matchHere (re : RE) (prev : Option Char) (s : Str) : Option Str :=
  mrun (matchFuel re s.length) re prev s fun _ r => some r

/-- `re.search` as a boolean: does the pattern match starting at some
position?  Scans positions left to right, tracking the previous character
for `\b`. -/
def researchFrom (re : RE) : Option Char → Str → Bool
  | prev, s =>
    match matchHere re prev s with
    | some _ => true
    | none =>
      match s with
      | [] => false
      | c :: rest => researchFrom re (some c) rest

/-- `re.search(pattern, s) != None`. -/
def research (re : RE) (s : Str) : Bool := researchFrom re none s

/-- One pass of `re.sub` with a literal replacement: scan left to right,
replace each non-overlapping match, and (like `re`) advance one character
past a zero-width match.  The outer `Nat` is fuel (one unit per scanned
position). -/
def reSubAllAux (re : RE) (repl : Str) : Nat → Option Char → Str → Str
  | 0, _, s => s
  | n + 1, prev, s =>
    match matchHere re prev s with
    | some rest =>
      let consumed := s.take (s.length - rest.length)
      match consumed with
      | [] =>
        match s with
        | [] => repl
        | c :: cs => repl ++ c :: reSubAllAux re repl n (some c) cs
      | _ => repl ++ reSubAllAux re repl n (some (consumed.getLastD ' ')) rest
    | none =>
      match s with
      | [] => []
      | c :: cs => c :: reSubAllAux re repl n (some c) cs

/-- `re.sub(pattern, repl, s)` with a literal replacement string. -/
def reSubAll (re : RE) (repl : Str) (s : Str) : Str :=
  reSubAllAux re repl (s.length + 1) none s

/-! ## Query parsing (`QleverNameService.get_query_parts`)

The source splits a whitespace-collapsed query with the fixed pattern
`^\s*(.*?)\s*SELECT\s+(\S[^{]*\S)\s*WHERE\s*{\s*(\S.*\S)\s*}\s*(.*?)\s*$`.
We implement precisely what a backtracking engine computes on it:
  * group 1 is the trimmed text before the first `SELECT` occurrence for
    which the remainder of the pattern matches (lazy `(.*?)`);
  * `SELECT` must be followed by at least one space; group 2 cannot
    contain `{`, hence the matched `{` is the first `{` after it, and
    `WHERE` must precede that `{` up to whitespace; group 2 is the text
    between `SELECT` and that `WHERE`, trimmed, of length at least two
    (`\S[^{]*\S`);
  * group 3 is greedy (`\S.*\S`), so it runs from the first non-space
    after the `{` to the last `}` whose preceding non-space text leaves a
    group of length at least two; group 4 is the trimmed tail after it.
If a `SELECT` candidate fails, the engine moves to the next occurrence. -/

/-- Given what follows the first `{` (the `\s*(\S.*\S)\s*}\s*(.*?)\s*$`
part of the pattern), compute group 3 and group 4.  Works on the reversed
remainder, trying `}` candidates from the right (greedy `.*`). -/
def g3g4Rev : Str → Str → Option (Str × Str)
  | [], _ => none
  | '}' :: rrest, tailAcc =>
    let g3 := rstripWs rrest.reverse
    if g3.length ≥ 2 then some (g3, stripWs tailAcc)
    else g3g4Rev rrest ('}' :: tailAcc)
  | c :: rrest, tailAcc => g3g4Rev rrest (c :: tailAcc)

/-- Attempt the part of the query pattern after a `SELECT` occurrence;
`g1` is the already-computed group 1. -/
def tryAfterSelect (g1 : Str) (afterSel : Str) : Option (Str × Str × Str × Str) :=
  match afterSel with
  | [] => none
  | c :: rest =>
    if pyIsSpace c then
      let d := rest.dropWhile pyIsSpace
      let t := d.takeWhile (· ≠ '{')
      match d.drop t.length with
      | '{' :: afterB =>
        let rt := rstripWs t
        if (str "WHERE").isSuffixOf rt then
          let g2 := rstripWs (rt.take (rt.length - 5))
          if g2.length ≥ 2 then
            let f := afterB.dropWhile pyIsSpace
            match g3g4Rev f.reverse [] with
            | some (g3, g4) => some (g1, g2, g3, g4)
            | none => none
          else none
        else none
      | _ => none
    else none

/-- Scan `SELECT` occurrences left to right (the lazy group 1), keeping
the reversed consumed prefix. -/
def matchQueryAux : Nat → Str → Str → Option (Str × Str × Str × Str)
  | 0, _, _ => none
  | n + 1, pre, s =>
    let next : Option (Str × Str × Str × Str) :=
      match s with
      | [] => none
      | c :: rest => matchQueryAux n (c :: pre) rest
    if (str "SELECT").isPrefixOf s then
      match tryAfterSelect (stripWs pre.reverse) (s.drop 6) with
      | some r => some r
      | none => next
    else next

/-- The four groups of the `get_query_parts` pattern applied to the
whitespace-collapsed query, or `none` when the pattern does not match. -/
def matchQueryRegex (cs : Str) : Option (Str × Str × Str × Str) :=
  matchQueryAux (cs.length + 1) [] cs

/-- `re.split("\s+(?=PREFIX)", g1)`: split at every whitespace run that is
immediately followed by `PREFIX`. -/
def splitBeforePREFIXAux : Nat → Str → Str → List Str
  | 0, acc, s => [acc.reverse ++ s]
  | _ + 1, acc, [] => [acc.reverse]
  | n + 1, acc, c :: rest =>
    if pyIsSpace c then
      let run := rest.dropWhile pyIsSpace
      if (str "PREFIX").isPrefixOf run then acc.reverse :: splitBeforePREFIXAux n [] run
      else splitBeforePREFIXAux n (c :: acc) rest
    else splitBeforePREFIXAux n (c :: acc) rest

/-- The prefix list of a parsed query. -/
def splitBeforePREFIX (s : Str) : List Str := splitBeforePREFIXAux (s.length + 1) [] s

/-- `re.sub("\(\s+", "(", s)`. -/
def subOpenParen : Nat → Str → Str
  | 0, s => s
  | _ + 1, [] => []
  | n + 1, '(' :: c :: rest =>
    if pyIsSpace c then '(' :: subOpenParen n (rest.dropWhile pyIsSpace)
    else '(' :: subOpenParen n (c :: rest)
  | n + 1, c :: rest => c :: subOpenParen n rest

/-- `re.sub("\s+\)", ")", s)`. -/
def subCloseParen : Nat → Str → Str
  | 0, s => s
  | _ + 1, [] => []
  | n + 1, c :: rest =>
    if pyIsSpace c then
      match rest.dropWhile pyIsSpace with
      | ')' :: r2 => ')' :: subCloseParen n r2
      | _ => c :: subCloseParen n rest
    else c :: subCloseParen n rest

/-- The two paren-tightening substitutions applied to group 2. -/
def tightenParens (s : Str) : Str :=
  subCloseParen (s.length + 1) (subOpenParen (s.length + 1) s)

/-- Try the aggregate pattern
`\(\s*[^(]+\s*\([^)]+\)\s*[aA][sS]\s*(\?[^)]+)\s*\)` just after an opening
paren; returns the captured `?var` (the replacement) and the rest. -/
def tryAggAt (rest : Str) : Option (Str × Str) := do
  let seg := rest.takeWhile (· ≠ '(')
  guard (seg.length ≥ 1)
  match rest.drop seg.length with
  | '(' :: r3 =>
    let inner := r3.takeWhile (· ≠ ')')
    guard (inner.length ≥ 1)
    match r3.drop inner.length with
    | ')' :: r4 =>
      match r4.dropWhile pyIsSpace with
      | a :: s2 :: r6 => do
        guard (a = 'a' ∨ a = 'A')
        guard (s2 = 's' ∨ s2 = 'S')
        match r6.dropWhile pyIsSpace with
        | '?' :: r8 =>
          let varTail := r8.takeWhile (· ≠ ')')
          guard (varTail.length ≥ 1)
          match r8.drop varTail.length with
          | ')' :: r9 => some ('?' :: varTail, r9)
          | _ => none
        | _ => none
      | _ => none
    | _ => none
  | _ => none

/-- `re.sub` with the aggregate pattern and replacement `\1`, scanning
left to right over non-overlapping matches. -/
def aggRewriteAux : Nat → Str → Str
  | 0, s => s
  | _ + 1, [] => []
  | n + 1, '(' :: rest =>
    (match tryAggAt rest with
     | some (v, after) => v ++ aggRewriteAux n after
     | none => '(' :: aggRewriteAux n rest)
  | n + 1, c :: rest => c :: aggRewriteAux n rest

/-- Rewrite `( expr ( inner ) AS ?v )` projection items to `?v`. -/
def aggRewrite (s : Str) : Str := aggRewriteAux (s.length + 1) s

/-- `re.sub("\s*\.?\s*$", "", s)`: strip trailing whitespace and at most
one trailing dot. -/
def stripTrailingDot (s : Str) : Str :=
  let r := rstripWs s
  match r.reverse with
  | '.' :: rr => rstripWs rr.reverse
  | _ => r

/-- `" ".join`. -/
def joinSpace (l : List Str) : Str := (l.intersperse (str " ")).flatten

/-- `"\n".join`. -/
def joinNl (l : List Str) : Str := (l.intersperse (str "\n")).flatten

/-- Separate a `GROUP BY` clause from the rest of group 4, exactly as the
token-based loop in `get_query_parts` does. -/
def splitGroupBy (footer : Str) : Str × Str :=
  let parts := splitWs footer
  if parts.length > 2 ∧ parts.getD 0 [] = str "GROUP" ∧ parts.getD 1 [] = str "BY" then
    let qs := (parts.drop 2).takeWhile fun t => t.headD ' ' = '?'
    let i := 2 + qs.length
    (joinSpace (parts.take i) ++ [' '], joinSpace (parts.drop i))
  else ([], footer)

/-- The six query parts produced by `QleverNameService.get_query_parts`. -/
structure QueryParts where
  prefixes_list : List Str
  select_vars_string : Str
  select_vars_list : List Str
  body_string : Str
  group_by_string : Str
  footer_string : Str
  deriving DecidableEq, Repr

/-- `QleverNameService.get_query_parts`: split a SPARQL query into its
parts, or `None` when the parse regex does not match. -/
def get_query_parts (sparql_query : Str) : Option QueryParts :=
  match matchQueryRegex (collapseWs sparql_query) with
  | none => none
  | some (g1, g2, g3, g4) =>
    let select_vars_string := tightenParens g2
    let select_vars_list := splitWs (aggRewrite select_vars_string)
    let body_string := stripTrailingDot (collapseWs g3)
    let (group_by_string, footer_string) := splitGroupBy g4
    some ⟨splitBeforePREFIX g1, select_vars_string, select_vars_list,
          body_string, group_by_string, footer_string⟩

/-- `QleverNameService.make_sparql_query_from_parts`: assemble the nested
query exactly as the f-string in the source does. -/
def make_sparql_query_from_parts (prefixes_list new_vars_list new_triples_list : List Str)
    (select_vars_string body_string group_by_string footer_string : Str) : Str :=
  let prefixes_string := joinNl prefixes_list
  let new_vars_string := joinSpace new_vars_list
  let new_triples_string := (new_triples_list.intersperse (str " .\n")).flatten
  prefixes_string ++ str "\nSELECT " ++ new_vars_string ++ str " WHERE \x7b\n  \x7b SELECT "
    ++ select_vars_string ++ str " WHERE \x7b\n    " ++ body_string ++ str " \x7d "
    ++ group_by_string ++ str "\x7d\n" ++ new_triples_string ++ str "\n\x7d " ++ footer_string

/-! ## URL encoding and decoding (`urllib.parse`) -/

/-- UTF-8 bytes of one code point. -/
def utf8EncodeChar (c : Char) : List Nat :=
  let n := c.toNat
  if n < 0x80 then [n]
  else if n < 0x800 then [0xC0 + n / 0x40, 0x80 + n % 0x40]
  else if n < 0x10000 then
    [0xE0 + n / 0x1000, 0x80 + n / 0x40 % 0x40, 0x80 + n % 0x40]
  else
    [0xF0 + n / 0x40000, 0x80 + n / 0x1000 % 0x40, 0x80 + n / 0x40 % 0x40, 0x80 + n % 0x40]

/-- Uppercase hex digit. -/
def hexDigitUpper (n : Nat) : Char := (str "0123456789ABCDEF").getD n '0'

/-- Lowercase hex digit. -/
def hexDigitLower (n : Nat) : Char := (str "0123456789abcdef").getD n '0'

/-- Characters `urllib.parse.quote` leaves unencoded with the default
`safe='/'`: unreserved characters plus `/`. -/
def quoteSafe (c : Char) : Bool :=
  (c ≥ 'a' && c ≤ 'z') || (c ≥ 'A' && c ≤ 'Z') || (c ≥ '0' && c ≤ '9') ||
    c = '_' || c = '.' || c = '-' || c = '~' || c = '/'

/-- `urllib.parse.quote(s)` (default `safe='/'`): percent-encode the UTF-8
bytes of every unsafe character. -/
def pyQuote (s : Str) : Str :=
  s.flatMap fun c =>
    if quoteSafe c then [c]
    else (utf8EncodeChar c).flatMap fun b => ['%', hexDigitUpper (b / 16), hexDigitUpper (b % 16)]

/-- Hex digit value, if `c` is one. -/
def hexVal? (c : Char) : Option Nat :=
  if c ≥ '0' && c ≤ '9' then some (c.toNat - '0'.toNat)
  else if c ≥ 'a' && c ≤ 'f' then some (c.toNat - 'a'.toNat + 10)
  else if c ≥ 'A' && c ≤ 'F' then some (c.toNat - 'A'.toNat + 10)
  else none

/-- Collect a maximal run of `%HH` escapes into bytes. -/
def collectPct : Str → List Nat × Str
  | '%' :: a :: b :: rest =>
    (match hexVal? a, hexVal? b with
     | some x, some y =>
       let (bs, r) := collectPct rest
       ((16 * x + y) :: bs, r)
     | _, _ => ([], '%' :: a :: b :: rest))
  | s => ([], s)

/-- Unicode replacement character (for `errors="replace"` decoding). -/
def replChar : Char := Char.ofNat 0xFFFD

/-- Is `b` a UTF-8 continuation byte? -/
def isCont (b : Nat) : Bool := 0x80 ≤ b && b < 0xC0

/-- Decode a UTF-8 byte list, replacing invalid sequences (Python's
`errors="replace"`, modelled per offending byte). -/
def utf8DecodeAux : Nat → List Nat → Str
  | 0, _ => []
  | _ + 1, [] => []
  | n + 1, b :: rest =>
    if b < 0x80 then Char.ofNat b :: utf8DecodeAux n rest
    else if b < 0xC0 then replChar :: utf8DecodeAux n rest
    else if b < 0xE0 then
      match rest with
      | b2 :: r2 =>
        if isCont b2 then Char.ofNat ((b - 0xC0) * 0x40 + (b2 - 0x80)) :: utf8DecodeAux n r2
        else replChar :: utf8DecodeAux n rest
      | [] => [replChar]
    else if b < 0xF0 then
      match rest with
      | b2 :: b3 :: r3 =>
        if isCont b2 && isCont b3 then
          Char.ofNat ((b - 0xE0) * 0x1000 + (b2 - 0x80) * 0x40 + (b3 - 0x80)) :: utf8DecodeAux n r3
        else replChar :: utf8DecodeAux n rest
      | _ => replChar :: utf8DecodeAux n rest.tail
    else
      match rest with
      | b2 :: b3 :: b4 :: r4 =>
        if isCont b2 && isCont b3 && isCont b4 then
          Char.ofNat ((b - 0xF0) * 0x40000 + (b2 - 0x80) * 0x1000 + (b3 - 0x80) * 0x40 + (b4 - 0x80))
            :: utf8DecodeAux n r4
        else replChar :: utf8DecodeAux n rest
      | _ => replChar :: utf8DecodeAux n rest.tail

/-- Decode UTF-8 bytes (with replacement). -/
def utf8Decode (bs : List Nat) : Str := utf8DecodeAux (bs.length + 1) bs

/-- `urllib.parse.unquote`: decode maximal `%HH` runs as UTF-8; a `%` not
followed by two hex digits stays literal. -/
def pyUnquoteAux : Nat → Str → Str
  | 0, s => s
  | _ + 1, [] => []
  | n + 1, s@('%' :: cs) =>
    let (bs, r) := collectPct s
    (match bs with
     | [] => '%' :: pyUnquoteAux n cs
     | _ => utf8Decode bs ++ pyUnquoteAux n r)
  | n + 1, c :: rest => c :: pyUnquoteAux n rest

/-- `urllib.parse.unquote(s)`. -/
def pyUnquote (s : Str) : Str := pyUnquoteAux (s.length + 1) s

/-- `urllib.parse.unquote_plus(s)`: `+` becomes a space, then unquote. -/
def pyUnquotePlus (s : Str) : Str :=
  pyUnquote (s.map fun c => if c = '+' then ' ' else c)

/-- Split a list at every occurrence of `sep` (like `str.split(sep)`). -/
def splitOnChar (sep : Char) : Str → List Str
  | [] => [[]]
  | c :: rest =>
    let r := splitOnChar sep rest
    if c = sep then [] :: r
    else
      match r with
      | h :: t => (c :: h) :: t
      | [] => [[c]]

/-- Split at the first occurrence of `sep` (`str.split(sep, 1)`); `none`
when `sep` does not occur. -/
def splitOnFirst (sep : Char) : Str → Option (Str × Str)
  | [] => none
  | c :: rest =>
    if c = sep then some ([], rest)
    else (splitOnFirst sep rest).map fun (a, b) => (c :: a, b)

/-- `urllib.parse.parse_qsl(qs)` with the defaults of the 2020-era Python
library: pairs split on `&` and `;`, pairs without `=` or with an empty
value skipped, names and values unquoted with `unquote_plus`. -/
def parseQsl (qs : Str) : List (Str × Str) :=
  ((splitOnChar '&' qs).flatMap (splitOnChar ';')).filterMap fun pair =>
    if pair = [] then none
    else
      match splitOnFirst '=' pair with
      | none => none
      | some (n, v) =>
        if v = [] then none else some (pyUnquotePlus n, pyUnquotePlus v)

/-- `urllib.parse.parse_qs(qs).get(key)`: the list of values for `key`,
`none` when the key is absent. -/
def parseQsGet (qs : Str) (key : Str) : Option (List Str) :=
  match (parseQsl qs).filterMap (fun p => if p.1 = key then some p.2 else none) with
  | [] => none
  | vals => some vals

/-! ## JSON serialisation (`json.dumps`, as used for the error body) -/

/-- Four lowercase hex digits. -/
def hex4 (n : Nat) : Str :=
  [hexDigitLower (n / 0x1000 % 16), hexDigitLower (n / 0x100 % 16),
   hexDigitLower (n / 16 % 16), hexDigitLower (n % 16)]

/-- `json.dumps` escaping of one character (`ensure_ascii=True`). -/
def jsonEscapeChar (c : Char) : Str :=
  if c = '"' then ['\\', '"']
  else if c = '\\' then ['\\', '\\']
  else if c = '\n' then ['\\', 'n']
  else if c = '\t' then ['\\', 't']
  else if c = '\x0d' then ['\\', 'r']
  else if c = '\x08' then ['\\', 'b']
  else if c = '\x0c' then ['\\', 'f']
  else if c.toNat < 0x20 then str "\\u" ++ hex4 c.toNat
  else if c.toNat < 0x7f then [c]
  else if c.toNat < 0x10000 then str "\\u" ++ hex4 c.toNat
  else
    str "\\u" ++ hex4 (0xD800 + (c.toNat - 0x10000) / 0x400) ++
      str "\\u" ++ hex4 (0xDC00 + (c.toNat - 0x10000) % 0x400)

/-- A JSON string literal. -/
def jsonStr (s : Str) : Str := '"' :: s.flatMap jsonEscapeChar ++ ['"']

/-! ## Response envelope (`class Response`)

`json.loads` of a response body is a library call; the model carries its
outcome alongside the body bytes (`JsonParse`), since the development does
not embed the `json` module.  A body is `obj fields` when `json.loads`
returns a dict, `notDict` when it returns something else (then `.get`
raises `AttributeError`, caught like a parse failure), and `fail` when
`json.loads` (or `bytes.decode`, flagged separately by `utf8_ok`) raises. -/

/-- The JSON values the code inspects: strings are compared against
`"ERROR"`, anything else never equals it. -/
inductive JVal
  | s (v : Str)
  | other
  deriving DecidableEq, Repr

/-- Outcome of `json.loads` on a body. -/
inductive JsonParse
  | obj (fields : List (Str × JVal))
  | notDict
  | fail
  deriving DecidableEq, Repr

/-- An upstream response body: the decoded code points (meaningful when
`utf8_ok`), whether `bytes.decode("utf-8")` succeeds, and the `json.loads`
outcome. -/
structure HTTPBody where
  raw : Str
  utf8_ok : Bool
  json : JsonParse
  deriving DecidableEq, Repr

/-- An `urllib3` HTTP response: status, body, headers. -/
structure HTTPResponse where
  status : Nat
  data : HTTPBody
  headers : List (Str × Str)
  deriving DecidableEq, Repr

/-- The proxy's response envelope: `http_response == None` signifies an
error, in which case `error_data` holds the JSON error bytes. -/
structure Response where
  http_response : Option HTTPResponse
  error_data : Option Str
  deriving DecidableEq, Repr

/-- The value stored under `"query"` in a synthesised error body:
`parse_qs(...).get("query", "[no query specified]")` is either the list of
query values or the default string. -/
inductive QVal
  | vals (l : List Str)
  | missing
  deriving DecidableEq, Repr

/-- The varying fields of the synthesised error dict (the other fields are
literals). -/
structure ErrorDict where
  query : QVal
  exception : Str
  deriving DecidableEq, Repr

/-- `json.dumps` of the `"query"` value. -/
def jdumpQVal : QVal → Str
  | .vals l => '[' :: ((l.map jsonStr).intersperse (str ", ")).flatten ++ [']']
  | .missing => jsonStr (str "[no query specified]")

/-- `json.dumps` of the synthesised error dict (insertion order, default
separators). -/
def jdumpErrorDict (d : ErrorDict) : Str :=
  str "\x7b\"query\": " ++ jdumpQVal d.query ++
    str ", \"status\": \"ERROR\", \"resultsize\": \"0\", " ++
    str "\"time\": \x7b\"total\": \"0ms\", \"computeResult\": \"0ms\"\x7d, \"exception\": " ++
    jsonStr d.exception ++ str "\x7d"

/-- The error dict built by `Response.__init__` when `http_response` is
`None`. -/
def mkProxyErrorDict (query_path error_msg : Str) : ErrorDict :=
  { query :=
      match parseQsGet (query_path.drop 2) (str "query") with
      | some l => .vals l
      | none => .missing,
    exception := str "QLever Proxy error: " ++ error_msg }

/-- `Response(query_path=..., error_msg=...)`: the `http_response == None`
branch of `Response.__init__`. -/
def Response.ofError (query_path error_msg : Str) : Response :=
  { http_response := none,
    error_data := some (jdumpErrorDict (mkProxyErrorDict query_path error_msg)) }

/-- `Response(http_response=r)`: the `http_response != None` branch of
`Response.__init__`.  A body that decodes and parses to a dict with
`status == "ERROR"` moves the body into `error_data` and clears
`http_response`; any decode/parse failure is caught and only logged. -/
def Response.ofHttp (hr : HTTPResponse) : Response :=
  if hr.data.utf8_ok then
    match hr.data.json with
    | .obj fields =>
      if fields.lookup (str "status") = some (.s (str "ERROR")) then
        { http_response := none, error_data := some hr.data.raw }
      else { http_response := some hr, error_data := none }
    | _ => { http_response := some hr, error_data := none }
  else { http_response := some hr, error_data := none }

/-! ## Backend client (`class Backend`)

The network is modelled as a deterministic world: `net` maps the full
request path to the outcome of `connection_pool.request`, and `statsOk`
tells whether the auxiliary cache-stats request (path
`base?cmd=cachestats`) succeeds with a parseable body.  Timeouts are
modelled as naturals since their value only flows into log strings. -/

/-- Outcome of one `connection_pool.request` call, covering the four
except-clauses of `Backend.query`. -/
inductive NetOutcome
  | success (resp : HTTPResponse)
  | sockTimeout
  | readTimeout
  | maxRetry
  | failure (msg : Str)
  deriving Repr

/-- The deterministic external world of one request. -/
structure World where
  net : Str → NetOutcome
  statsOk : Bool

/-- Configuration of one backend (`Backend.__init__`). -/
structure Backend where
  host : Str
  port : Nat
  base_path : Str
  timeout_seconds : Nat
  backend_id : Nat
  pin_results : Bool
  always_show_cache_stats : Bool
  deriving Repr

/-- Decimal digits of a natural number. -/
def natToStr (n : Nat) : Str := (Nat.repr n).data

/-- `"Backend %d:" % backend_id`. -/
def logPre (b : Backend) : Str := str "Backend " ++ natToStr b.backend_id ++ str ":"

/-- Rendering of the timeout in log messages (`%.1f`). -/
def fmtTimeout (t : Nat) : Str := natToStr t ++ str ".0"

/-- `"%s Timeout (%s) after %.1f seconds"`. -/
def timeoutMsg (b : Backend) (t : Nat) (kind : Str) : Str :=
  logPre b ++ str " Timeout (" ++ kind ++ str ") after " ++ fmtTimeout t ++ str " seconds"

/-- `"%s Error with request to %s (%s)"`. -/
def genericErrMsg (b : Backend) (m : Str) : Str :=
  logPre b ++ str " Error with request to " ++ b.host ++ str " (" ++ m ++ str ")"

/-- `Backend.show_cache_stats`: on any failure of the cache-stats request
the except-handler executes `Response(query_path=query_path, ...)` where
`query_path` is not defined in its scope, so instead of swallowing the
failure it raises `NameError` (source line 690). -/
def Backend.show_cache_stats (_b : Backend) (w : World) : Except PyErr Unit :=
  if w.statsOk then .ok () else .error .nameError

/-- The full request path of `Backend.query`: base path, query path, and
the pinning parameters unless pinning is off (the per-call
`pin_results_override` takes precedence over the configured default). -/
def Backend.full_path (b : Backend) (query_path : Str) (pin_results_override : Option Bool) : Str :=
  let pin_results_params :=
    if pin_results_override.getD b.pin_results then str "&pinresult=true&pinsubtrees=true"
    else []
  b.base_path ++ query_path ++ pin_results_params

/-- `Backend.query`: issue the GET, assert status 200, optionally show
cache stats, and wrap the outcome in a `Response`.  All exceptions inside
the `try` — including the `NameError` escaping `show_cache_stats` and the
`AssertionError` of a non-200 status (whose `str(e)` is empty) — reach the
matching except-clause and produce a synthesised error response. -/
def Backend.query (b : Backend) (w : World) (query_path : Str) (timeout : Nat)
    (pin_results_override : Option Bool) : Response :=
  match w.net (b.full_path query_path pin_results_override) with
  | .success resp =>
    if resp.status = 200 then
      if (b.pin_results || b.always_show_cache_stats) && pin_results_override.getD true then
        match b.show_cache_stats w with
        | .ok _ => Response.ofHttp resp
        | .error _ =>
          Response.ofError query_path (genericErrMsg b (str "name 'query_path' is not defined"))
      else Response.ofHttp resp
    else Response.ofError query_path (genericErrMsg b [])
  | .sockTimeout => Response.ofError query_path (timeoutMsg b timeout (str "socket.timeout"))
  | .readTimeout => Response.ofError query_path (timeoutMsg b timeout (str "ReadTimeoutError"))
  | .maxRetry => Response.ofError query_path (timeoutMsg b timeout (str "MaxRetryError"))
  | .failure m => Response.ofError query_path (genericErrMsg b m)

/-! ## Racing dispatcher (`QueryProcessor.query_backends_in_parallel`)

Each backend thread deposits its `(response, backend_id)` pair on the
serialised queue; the argument below is the queue in arrival order.  A
backend that misses its deadline deposits a timeout `Response` (with
`http_response == None`), so "Ok within its deadline" corresponds to a
deposited pair whose `http_response` is not `None`.  `none` models the
dispatcher blocking forever on an empty queue (unreachable: both threads
always deposit). -/

/-- The choice the dispatcher makes given the arrival-ordered queue. -/
def query_backends_in_parallel : List (Response × Nat) → Option (Response × Nat)
  | [] => none
  | (response, backend_id) :: rest =>
    if backend_id = 1 ∧ response.http_response = none then rest.head?
    else if backend_id = 2 then
      match rest with
      | [] => none
      | (r2, id2) :: _ =>
        some (if r2.http_response ≠ none then (r2, id2) else (response, backend_id))
    else some (response, backend_id)

/-! ## Front server (`RequestHandler.do_GET`)

Writing the outbound response is modelled as building an `OutResponse`:
`statusWrites` records each `send_response` call, `headers` the headers
sent, `body` the bytes written. -/

/-- The outbound HTTP response written by `do_GET`. -/
structure OutResponse where
  statusWrites : List Nat
  headers : List (Str × Str)
  body : Option Str
  deriving DecidableEq, Repr

/-- The upstream headers `do_GET` forwards. -/
def headers_preserved : List Str := [str "Content-Type", str "Access-Control-Allow-Origin"]

/-- The response-writing part of `do_GET`, given the dispatcher's
envelope: on success forward status 200, the preserved headers that the
upstream response actually carries, and the body; otherwise status 200,
JSON content type, a wildcard `Access-Control-Allow-Origin` and the error
bytes. -/
def do_GET_write (response : Response) : OutResponse :=
  match response.http_response with
  | some hr =>
    { statusWrites := [200],
      headers := headers_preserved.filterMap fun k => (hr.headers.lookup k).map ((k, ·)),
      body := some hr.data.raw }
  | none =>
    { statusWrites := [200],
      headers := [(str "Content-Type", str "application/json"),
                  (str "Access-Control-Allow-Origin", str "*")],
      body := response.error_data }

/-! ## Name service configuration (`QleverNameService.ConfigForAddTriple`) -/

/-- Python's `needle in haystack` / `haystack.find(needle) != -1`. -/
def containsSub (needle : Str) : Str → Bool
  | [] => needle = []
  | s@(_ :: rest) => needle.isPrefixOf s || containsSub needle rest

/-- Index (from the left) of the last character satisfying `p`. -/
def lastIdxOf (p : Char → Bool) (s : Str) : Option Nat :=
  match s.reverse.findIdx? p with
  | some k => some (s.length - 1 - k)
  | none => none

/-- `re.sub("^.*[/#](.*)>", "\\S+:\\1", predicate)`: with the greedy
groups, the match (anchored at the start, hence at most one) uses the last
`/` or `#` that still has a `>` after it, and the last `>` overall; the
matched region is replaced by `\S+:` followed by the text between them. -/
def localNameSub (predicate : Str) : Str :=
  match lastIdxOf (· = '>') predicate with
  | none => predicate
  | some j =>
    match lastIdxOf (fun c => c = '/' || c = '#') (predicate.take j) with
    | none => predicate
    | some i =>
      str "\\S+:" ++ ((predicate.drop (i + 1)).take (j - i - 1)) ++ predicate.drop (j + 1)

/-- Configuration for adding one triple (predicate, variable suffix,
SELECT positions, OPTIONAL wrapping, existence regex, position filter). -/
structure ConfigForAddTriple where
  predicate : Str
  suffix : Str
  position : Int
  position_repeated : Int
  optional : Bool
  predicate_exists_regex : Str
  select_variable_position : Option Int
  deriving DecidableEq, Repr

/-- `ConfigForAddTriple.__init__` without keyword overrides (the only
form the program constructs): `position_repeated` falls to 0 for label
predicates, `_image`/`_coords` suffixes force `OPTIONAL` and a fixed
SELECT position, and the existence regex defaults to
`(predicate|\S+:localname)`. -/
def ConfigForAddTriple.make (predicate suffix : Str) (position : Int) : ConfigForAddTriple :=
  { predicate := predicate
    suffix := suffix
    position := position
    position_repeated := if containsSub (str "label") predicate then 0 else position
    optional := suffix = str "_image" || suffix = str "_coords"
    predicate_exists_regex := '(' :: predicate ++ '|' :: localNameSub predicate ++ [')']
    select_variable_position :=
      if suffix = str "_image" then some 0
      else if suffix = str "_coords" then some (-1)
      else none }

/-- A Name Service instance (`QleverNameService.__init__`). -/
structure QleverNameService where
  backend : Backend
  subject_var_suffix : Str
  configs_for_add_triple : List ConfigForAddTriple

/-! ## The enhancement loop (`QleverNameService.enhance_query`)

The loop is modelled as explicit state passing.  `EnhState` holds the
mutable strings and lists; `VarState` holds the per-variable bookkeeping
(`var`, `var_has_been_renamed`, `original_var`).  The `probes` field is
instrumentation only: it records each probe submission (path and
`pin_results_override` flag) and influences nothing. -/

/-- One recorded probe submission. -/
structure ProbeRecord where
  query_path : Str
  pin_results_override : Bool
  deriving DecidableEq, Repr

/-- The mutable state of `enhance_query`. -/
structure EnhState where
  new_select_vars_list : List Str
  new_triples_list : List Str
  num_vars_added : Nat
  num_triples_added_per_config : List Nat
  body_string : Str
  group_by_string : Str
  select_vars_string : Str
  probes : List ProbeRecord
  deriving DecidableEq, Repr

/-- The per-variable state of the outer loop. -/
structure VarState where
  var : Str
  var_has_been_renamed : Bool
  original_var : Str
  deriving DecidableEq, Repr

/-- `re.sub("\?", "\\?", var)`: escape the question marks of a variable
name for use inside a pattern. -/
def escapeQ (v : Str) : Str := v.flatMap fun c => if c = '?' then ['\\', '?'] else [c]

/-- The dynamically built existence pattern
`re.sub("\?","\\?",var) + "\s+" + config.predicate_exists_regex`. -/
def existPattern (v : Str) (config : ConfigForAddTriple) : Str :=
  escapeQ v ++ str "\\s+" ++ config.predicate_exists_regex

/-- The dynamically built rename pattern (whole-word match of the
original variable). -/
def renamePattern (v : Str) : Str := escapeQ v ++ str "\\b"

/-- Try `"resultsize"\s*:\s*(\d+)` at the current position. -/
def tryResultsizeAt (s : Str) : Option Nat :=
  if (str "\"resultsize\"").isPrefixOf s then
    match (s.drop 12).dropWhile pyIsSpace with
    | ':' :: r3 =>
      let digits := (r3.dropWhile pyIsSpace).takeWhile Char.isDigit
      match digits with
      | [] => none
      | _ => some (digits.foldl (fun acc c => 10 * acc + (c.toNat - '0'.toNat)) 0)
    | _ => none
  else none

/-- `re.search("\"resultsize\"\s*:\s*(\d+)", data)` with `int(group(1))`. -/
def findResultsize : Str → Option Nat
  | [] => none
  | s@(_ :: rest) =>
    match tryResultsizeAt s with
    | some n => some n
    | none => findResultsize rest

/-- The position argument used for a new triple of `config` (source lines
439-442): `config.position` for the first triple added for this config,
`config.position_repeated` afterwards. -/
def effectivePosition (config : ConfigForAddTriple) (count : Nat) : Int :=
  if count = 0 then config.position else config.position_repeated

/-- Placement of the new variable in the SELECT list (source lines
443-461): position 0 overwrites the slot `var_index + num_vars_added`;
a positive position first increments `num_vars_added` and inserts at
`var_index + num_vars_added + position - 1`; a negative position inserts
at `len(list) + position + 1` without touching the counter. -/
def placeNewVar (position : Int) (var_index num_vars_added : Nat) (lst : List Str)
    (new_var : Str) : Except PyErr (List Str × Nat) :=
  if position = 0 then
    (pySetIdx lst (var_index + num_vars_added) new_var).map fun l => (l, num_vars_added)
  else if position > 0 then
    let nva := num_vars_added + 1
    let pos : Int := (var_index : Int) + (nva : Int) + position - 1
    .ok (pyInsert lst pos new_var, nva)
  else
    let pos : Int := (lst.length : Int) + position + 1
    .ok (pyInsert lst pos new_var, num_vars_added)

/-- The renaming block (source lines 410-424): when the subject-variable
suffix is nonempty and this variable has not been renamed yet, rename it
in the SELECT slot and substitute it (whole-word) in the body, GROUP BY
and inner-SELECT strings.  `re.error` from compiling the dynamic pattern,
or from a backslash in the replacement (its template processing), raises. -/
def renameStep (qns : QleverNameService) (var_index : Nat) (vs : VarState) (S : EnhState) :
    Except PyErr (VarState × EnhState) :=
  if qns.subject_var_suffix ≠ [] ∧ vs.var_has_been_renamed = false then
    let var := vs.original_var ++ qns.subject_var_suffix
    match pySetIdx S.new_select_vars_list (var_index + S.num_vars_added) var with
    | .error e => .error e
    | .ok nsvl =>
      match recompile (renamePattern vs.original_var) with
      | none => .error .reError
      | some rpat =>
        if var.any (· = '\\') then .error .reError
        else
          .ok ({ vs with var := var, var_has_been_renamed := true },
               { S with new_select_vars_list := nsvl,
                        body_string := reSubAll rpat var S.body_string,
                        group_by_string := reSubAll rpat var S.group_by_string,
                        select_vars_string := reSubAll rpat var S.select_vars_string })
  else .ok (vs, S)

/-- The add-triple block (source lines 404-466): rename if needed, assert
that the (possibly renamed) variable differs from the new variable, append
the new triple (wrapped in `OPTIONAL` when configured), place the new
variable by the first-use or repeated-use position, and bump the per-config
counter. -/
def addTripleStep (qns : QleverNameService) (config_index : Nat)
    (config : ConfigForAddTriple) (var_index : Nat) (vs : VarState) (S : EnhState) :
    Except PyErr (VarState × EnhState) :=
  match renameStep qns var_index vs S with
  | .error e => .error e
  | .ok (vs, S) =>
    let new_var := vs.original_var ++ config.suffix
    if vs.var = new_var then .error .assertionError
    else
      let new_triple := vs.var ++ str " " ++ config.predicate ++ str " " ++ new_var
      let new_triple :=
        if config.optional then str "OPTIONAL \x7b " ++ new_triple ++ str " \x7d"
        else new_triple
      let S := { S with new_triples_list := S.new_triples_list ++ [str "  " ++ new_triple] }
      let position := effectivePosition config (S.num_triples_added_per_config.getD config_index 0)
      match placeNewVar position var_index S.num_vars_added S.new_select_vars_list new_var with
      | .error e => .error e
      | .ok (nsvl, nva) =>
        .ok (vs, { S with
          new_select_vars_list := nsvl,
          num_vars_added := nva,
          num_triples_added_per_config :=
            S.num_triples_added_per_config.set config_index
              (S.num_triples_added_per_config.getD config_index 0 + 1) })

/-- The position filter (source lines 325-331): a config with a
`select_variable_position` only applies to the variable at that SELECT
index (negative values resolved from the end). -/
def positionFilterSkips (config : ConfigForAddTriple) (svlLen var_index : Nat) : Bool :=
  match config.select_variable_position with
  | none => false
  | some p =>
    let select_variable_position : Int := if p ≥ 0 then p else (svlLen : Int) + p
    decide ((var_index : Int) ≠ select_variable_position)

/-- The existence check (source lines 350-352): compile the dynamically
built pattern (a failure is `re.error`) and search the body for an
existing name triple of `v`. -/
def existenceCheck (v : Str) (config : ConfigForAddTriple) (body : Str) : Except PyErr Bool :=
  match recompile (existPattern v config) with
  | none => .error .reError
  | some pat => .ok (research pat body)

/-- The probe query built for `(var, config)` from the current state
(source lines 361-371). -/
def mkTestQuery (prefixes_list : List Str) (var : Str) (config : ConfigForAddTriple)
    (S : EnhState) : Str :=
  let group_by_string_enhanced := S.group_by_string ++ str "ORDER BY " ++ var ++ str " "
  let test_var := var ++ config.suffix ++ str "_test"
  let test_triple := str "  " ++ var ++ str " " ++ config.predicate ++ str " " ++ test_var
  make_sparql_query_from_parts prefixes_list [test_var] [test_triple]
    S.select_vars_string S.body_string group_by_string_enhanced (str "LIMIT 1")

/-- One iteration of the inner config loop (source lines 321-466): the
position filter, the existence check, the probe, and on success the
add-triple block. -/
def stepConfig (qns : QleverNameService) (w : World) (prefixes_list : List Str)
    (svlLen var_index config_index : Nat) (config : ConfigForAddTriple)
    (vs : VarState) (S : EnhState) : Except PyErr (VarState × EnhState) :=
  if positionFilterSkips config svlLen var_index then .ok (vs, S)
  else
    match existenceCheck vs.var config S.body_string with
    | .error e => .error e
    | .ok true => .ok (vs, S)
    | .ok false =>
      let qpath := str "/?query=" ++ pyQuote (mkTestQuery prefixes_list vs.var config S)
      let response := qns.backend.query w qpath qns.backend.timeout_seconds (some false)
      let S := { S with probes := S.probes ++ [⟨qpath, false⟩] }
      match response.http_response with
      | some hr =>
        if hr.data.utf8_ok = false then .error .unicodeDecodeError
        else
          let add_new_triple :=
            match findResultsize hr.data.raw with
            | some n => decide (n > 0)
            | none => false
          if add_new_triple then addTripleStep qns config_index config var_index vs S
          else .ok (vs, S)
      | none => .ok (vs, S)

/-- The inner config loop. -/
def stepConfigs (qns : QleverNameService) (w : World) (prefixes_list : List Str)
    (svlLen var_index : Nat) :
    Nat → List ConfigForAddTriple → VarState → EnhState → Except PyErr (VarState × EnhState)
  | _, [], vs, S => .ok (vs, S)
  | ci, c :: rest, vs, S =>
    match stepConfig qns w prefixes_list svlLen var_index ci c vs S with
    | .error e => .error e
    | .ok (vs2, S2) => stepConfigs qns w prefixes_list svlLen var_index (ci + 1) rest vs2 S2

/-- The outer loop over the projected variables of the original SELECT
list. -/
def stepVars (qns : QleverNameService) (w : World) (prefixes_list : List Str) (svlLen : Nat) :
    Nat → List Str → EnhState → Except PyErr EnhState
  | _, [], S => .ok S
  | vi, v :: rest, S =>
    match stepConfigs qns w prefixes_list svlLen vi 0 qns.configs_for_add_triple
        ⟨v, false, v⟩ S with
    | .error e => .error e
    | .ok (_, S2) => stepVars qns w prefixes_list svlLen (vi + 1) rest S2

/-- Result of a full `enhance_query` run: the emitted query plus the final
loop state (which records the added triples and the submitted probes; for
a parse failure the state is the empty one). -/
structure EnhOut where
  query : Str
  state : EnhState
  deriving DecidableEq, Repr

/-- The empty loop state reported when parsing fails. -/
def emptyEnhState : EnhState := ⟨[], [], 0, [], [], [], [], []⟩

/-- `QleverNameService.enhance_query` with its full state: parse, run the
loop, and assemble the final query.  A parse failure returns the query
unchanged; exceptions escaping the loop are the `Except.error` case. -/
def enhance_query_full (qns : QleverNameService) (w : World) (sparql_query : Str) :
    Except PyErr EnhOut :=
  match get_query_parts sparql_query with
  | none => .ok ⟨sparql_query, emptyEnhState⟩
  | some parts =>
    let S0 : EnhState :=
      ⟨parts.select_vars_list, [], 0,
       List.replicate qns.configs_for_add_triple.length 0,
       parts.body_string, parts.group_by_string, parts.select_vars_string, []⟩
    match stepVars qns w parts.prefixes_list parts.select_vars_list.length 0
        parts.select_vars_list S0 with
    | .error e => .error e
    | .ok S =>
      .ok ⟨make_sparql_query_from_parts parts.prefixes_list S.new_select_vars_list
             S.new_triples_list S.select_vars_string S.body_string S.group_by_string
             parts.footer_string, S⟩

/-- `QleverNameService.enhance_query` (the returned string). -/
def enhance_query (qns : QleverNameService) (w : World) (sparql_query : Str) :
    Except PyErr Str :=
  (enhance_query_full qns w sparql_query).map (·.query)

/-! ## Shared concrete fixtures for witnesses and counterexamples -/

/-- A successful upstream response with a plain (non-JSON) body. -/
def okHttpResp : HTTPResponse :=
  { status := 200, data := { raw := str "result", utf8_ok := true, json := .fail },
    headers := [(str "Content-Type", str "application/json")] }

/-- An Ok envelope (no `Access-Control-Allow-Origin` upstream). -/
def okResp : Response := Response.ofHttp okHttpResp

/-- A backend-1 error envelope. -/
def errResp1 : Response := Response.ofError (str "/?query=a") (str "timeout one")

/-- A backend-2 error envelope, with a different body. -/
def errResp2 : Response := Response.ofError (str "/?query=b") (str "timeout two")

/-- An upstream response that does carry the CORS header. -/
def okHttpRespAcao : HTTPResponse :=
  { status := 200, data := { raw := str "result", utf8_ok := true, json := .fail },
    headers := [(str "Content-Type", str "application/json"),
                (str "Access-Control-Allow-Origin", str "*")] }

/-! ## Claims C4 and C10: classification in `Backend.query` -/

/-- A primary backend as the program constructs it
(`Backend(args.backend_1, args.timeout_1, 1)`: pinning off, cache stats
on by default). -/
def backend1 : Backend :=
  { host := str "qlever.cs.uni-freiburg.de", port := 443, base_path := str "/api/wikidata",
    timeout_seconds := 10, backend_id := 1, pin_results := false,
    always_show_cache_stats := true }

/-- An HTTP-200 upstream response whose JSON body has a non-ERROR
status. -/
def okJsonHttpResp : HTTPResponse :=
  { status := 200,
    data := { raw := str "\x7b\"status\": \"OK\", \"resultsize\": \"5\"\x7d", utf8_ok := true,
              json := .obj [(str "status", .s (str "OK")), (str "resultsize", .other)] },
    headers := [] }

/-- An HTTP-200 upstream response whose body is not JSON at all. -/
def nonJsonHttpResp : HTTPResponse :=
  { status := 200,
    data := { raw := str "<html>Bad Gateway</html>", utf8_ok := true, json := .fail },
    headers := [] }

/-- A world where every request succeeds with `resp` but the follow-up
cache-stats request fails. -/
def statsFailWorld (resp : HTTPResponse) : World :=
  { net := fun _ => .success resp, statsOk := false }

/-- A world where every request succeeds with `resp` and cache stats
succeed too. -/
def statsOkWorld (resp : HTTPResponse) : World :=
  { net := fun _ => .success resp, statsOk := true }

/-! ## Claim C7: placement of the new variable in the SELECT list -/

/-- The placement rule as claim C7 states it (a second definition written
from the claim's words, to be compared with `placeNewVar` /
`effectivePosition` from the source). -/
def placeNewVarClaim (position : Int) (currentIndex vars_added_before : Nat)
    (projection : List Str) (new_var : Str) : List Str × Nat :=
  if position = 0 then
    (projection.set (currentIndex + vars_added_before) new_var, vars_added_before)
  else if position > 0 then
    (projection.insertIdx (currentIndex + vars_added_before + position.toNat) new_var,
     vars_added_before + 1)
  else
    (projection.insertIdx ((projection.length : Int) + position + 1).toNat new_var,
     vars_added_before)

/-- All records of a probe log have pinning disabled. -/
def probesPinFalse (l : List ProbeRecord) : Prop :=
  ∀ r ∈ l, r.pin_results_override = false

/-! Fixtures for the enhancer claims: a fallback backend, a single
label-like triple config with suffix `_nm`, a subject-variable suffix
`_id`, and deterministic worlds that answer every probe positively
(`w9`) or negatively (`w9no`). -/

/-- The probe backend used by the enhancer fixtures. -/
def backend9 : Backend :=
  { host := str "h", port := 443, base_path := str "/api", timeout_seconds := 1,
    backend_id := 2, pin_results := false, always_show_cache_stats := true }

/-- One add-triple config: predicate `<p:n>`, suffix `_nm`, position 1. -/
def config9 : ConfigForAddTriple := ConfigForAddTriple.make (str "<p:n>") (str "_nm") 1

/-- A name service with subject-variable suffix `_id`. -/
def qns9 : QleverNameService := ⟨backend9, str "_id", [config9]⟩

/-- A deterministic world whose backend answers every query with
`"resultsize": 1` (every probe succeeds). -/
def w9 : World :=
  { net := fun _ =>
      .success { status := 200,
                 data := { raw := str "\"resultsize\": 1", utf8_ok := true, json := .notDict },
                 headers := [] },
    statsOk := true }

/-- A deterministic world whose backend answers every query with
`"resultsize": 0` (every probe fails). -/
def w9no : World :=
  { net := fun _ =>
      .success { status := 200,
                 data := { raw := str "\"resultsize\": 0", utf8_ok := true, json := .notDict },
                 headers := [] },
    statsOk := true }

/-- The input query of the enhancer fixtures. -/
def q9 : Str := str "SELECT ?x WHERE \x7b ?x <a:b> ?y \x7d"

/-- What `enhance_query qns9 w9 q9` emits (checked below). -/
def q9out : Str :=
  str "\nSELECT ?x_id ?x_nm WHERE \x7b\n  \x7b SELECT ?x_id WHERE \x7b\n    ?x_id <a:b> ?y \x7d \x7d\n  ?x_id <p:n> ?x_nm\n\x7d "

/-- The parsed initial loop state of `q9`. -/
def S9init : EnhState :=
  ⟨[str "?x"], [], 0, [0], str "?x <a:b> ?y", [], str "?x", []⟩

/-- The per-variable state for `?x` before any config is tried. -/
def vs9x : VarState := ⟨str "?x", false, str "?x"⟩

/-- The probe path submitted for `(?x, config9)` from `S9init`. -/
def probePath9 : Str := str "/?query=" ++ pyQuote (mkTestQuery [[]] (str "?x") config9 S9init)

/-- The state after the failed probe of `(?x, config9)` in `w9no`. -/
def S9post : EnhState := { S9init with probes := [⟨probePath9, false⟩] }

/-- The parsed loop state of `q9out` (the second run), positioned at the
variable `?x_id` whose name triple is already present in the body. -/
def S9body : EnhState :=
  ⟨[str "?x_id", str "?x_nm"], [], 0, [0],
   str "\x7b SELECT ?x_id WHERE \x7b ?x_id <a:b> ?y \x7d \x7d ?x_id <p:n> ?x_nm",
   [], str "?x_id ?x_nm", []⟩

/-! ## Claim C5: `enhance_query` never raises -/

/-- A name service whose subject-variable suffix and config suffix are
both empty (constructible from the command line with
`--subject-var-suffix "" --add-triple "<p:n>||1"`). -/
def qns5 : QleverNameService := ⟨backend9, [], [ConfigForAddTriple.make (str "<p:n>") [] 1]⟩

/-- Conditions on one projected variable under which the dynamically
built patterns neither fail to compile nor hit the replacement-escape
error: the existence pattern compiles for the variable and for its
renamed form, the rename pattern compiles, and the renamed form contains
no backslash. -/
def VarPatternsOk (qns : QleverNameService) (v : Str) : Prop :=
  (∀ c ∈ qns.configs_for_add_triple,
    recompile (existPattern v c) ≠ none ∧
    recompile (existPattern (v ++ qns.subject_var_suffix) c) ≠ none) ∧
  recompile (renamePattern v) ≠ none ∧
  ((v ++ qns.subject_var_suffix).any fun c => c = '\\') = false

/-- The per-variable invariant of the enhancement loop: the current
variable is the original one, or the original with the subject-variable
suffix appended once the rename has happened (which requires a nonempty
suffix). -/
def VarInv (qns : QleverNameService) (vs : VarState) : Prop :=
  (vs.var_has_been_renamed = false → vs.var = vs.original_var) ∧
  (vs.var_has_been_renamed = true →
    vs.var = vs.original_var ++ qns.subject_var_suffix ∧ qns.subject_var_suffix ≠ [])

end QleverProxy

namespace QleverProxy

theorem collapseWs_example : collapseWs (str "a  b\n c") = str "a b c" := by decide

set_option maxRecDepth 10000

/-- The doctest of `get_query_parts` from the source, reproduced on the
model (all six parts). -/
theorem get_query_parts_doctest :
    get_query_parts (str (" PREFIX a: <bla>  PREFIX bc: <http://y> \n" ++
        "SELECT ?x_  ( COUNT( ?y_2) AS ?yy)  WHERE \n" ++
        "\x7b ?x wd:P31 ?p31 \x7b SELECT ... WHERE ... \x7d ?p31 w:P279 ?y .\x7d " ++
        "GROUP BY ?yy ?x OFFSET 20 LIMIT 10")) =
      some ⟨[str "PREFIX a: <bla>", str "PREFIX bc: <http://y>"],
            str "?x_ (COUNT(?y_2) AS ?yy)",
            [str "?x_", str "?yy"],
            str "?x wd:P31 ?p31 \x7b SELECT ... WHERE ... \x7d ?p31 w:P279 ?y",
            str "GROUP BY ?yy ?x ",
            str "OFFSET 20 LIMIT 10"⟩ := by
  decide

/-! ## Claims C1 and C2: racing precedence -/

/-- Claim C1: for a racing request, when backend 1's call returns Ok
within its deadline (it deposits a pair with `http_response != None`),
the chosen response is backend 1's, whichever pair arrived first and
whatever backend 2 deposited. -/
theorem racing_backend1_ok_wins (r1 r2 : Response) (h1 : r1.http_response ≠ none) :
    query_backends_in_parallel [(r1, 1), (r2, 2)] = some (r1, 1) ∧
    query_backends_in_parallel [(r2, 2), (r1, 1)] = some (r1, 1) := by
  constructor
  · simp [query_backends_in_parallel, h1]
  · simp [query_backends_in_parallel, h1]

/-- Witness for `racing_backend1_ok_wins` at concrete envelopes. -/
theorem racing_backend1_ok_wins_witness :
    query_backends_in_parallel [(okResp, 1), (errResp2, 2)] = some (okResp, 1) ∧
    query_backends_in_parallel [(errResp2, 2), (okResp, 1)] = some (okResp, 1) :=
  racing_backend1_ok_wins okResp errResp2 (by decide)

/-- Claim C2 counterexample: backend 2's error arrives first and backend 1
also errors; the dispatcher returns backend 2's error, not backend 1's
(the two error bodies differ). -/
theorem racing_both_error_returns_b2_counterexample :
    query_backends_in_parallel [(errResp2, 2), (errResp1, 1)] = some (errResp2, 2) ∧
    errResp2.error_data ≠ errResp1.error_data := by decide

/-- Claim C2 (amended): when backend 2's pair arrives first, the
dispatcher waits for backend 1's pair and prefers it when backend 1 is
Ok; but when backend 1 also errors, the response returned is backend 2's
error (the first arrival), not backend 1's. -/
theorem racing_b2_first_amended (r2 r1 : Response) (_h2 : r2.http_response = none) :
    (r1.http_response ≠ none → query_backends_in_parallel [(r2, 2), (r1, 1)] = some (r1, 1)) ∧
    (r1.http_response = none → query_backends_in_parallel [(r2, 2), (r1, 1)] = some (r2, 2)) := by
  constructor
  · intro h1
    simp [query_backends_in_parallel, h1]
  · intro h1
    simp [query_backends_in_parallel, h1]

/-- Witness for `racing_b2_first_amended` at concrete envelopes. -/
theorem racing_b2_first_amended_witness :
    query_backends_in_parallel [(errResp2, 2), (errResp1, 1)] = some (errResp2, 2) :=
  (racing_b2_first_amended errResp2 errResp1 (by decide)).2 (by decide)

/-! ## Claim C3: the outbound response of `do_GET` -/

/-- Claim C3 counterexample: for an Ok envelope whose upstream response
carries no `Access-Control-Allow-Origin` header, the outbound response
carries none either — the Ok branch only copies headers that are present
upstream. -/
theorem do_GET_acao_counterexample :
    (do_GET_write okResp).headers.lookup (str "Access-Control-Allow-Origin") = none := by
  decide

/-- Claim C3 (amended): `do_GET` writes exactly one response and its
status is always 200; the error branch always carries
`Access-Control-Allow-Origin: *`; the Ok branch carries the header
whenever the upstream response does (with the same value). -/
theorem do_GET_amended (r : Response) :
    (do_GET_write r).statusWrites = [200] ∧
    (r.http_response = none →
      (do_GET_write r).headers.lookup (str "Access-Control-Allow-Origin") = some (str "*")) ∧
    (∀ hr, r.http_response = some hr →
      ∀ v, hr.headers.lookup (str "Access-Control-Allow-Origin") = some v →
        (do_GET_write r).headers.lookup (str "Access-Control-Allow-Origin") = some v) := by
  refine ⟨?_, ?_, ?_⟩
  · cases h : r.http_response <;> simp [do_GET_write, h]
  · intro h
    simp [do_GET_write, h]
    decide
  · intro hr h v hv
    have hne : (str "Access-Control-Allow-Origin" == str "Content-Type") = false := by decide
    simp only [do_GET_write, h, headers_preserved, List.filterMap]
    cases hct : hr.headers.lookup (str "Content-Type") <;>
      simp [hct, hv, List.lookup, hne]

/-- Witness for `do_GET_amended`: the error branch and an Ok branch with
the header upstream. -/
theorem do_GET_amended_witness :
    (do_GET_write errResp1).headers.lookup (str "Access-Control-Allow-Origin") =
      some (str "*") ∧
    (do_GET_write (Response.ofHttp okHttpRespAcao)).headers.lookup
        (str "Access-Control-Allow-Origin") = some (str "*") :=
  ⟨(do_GET_amended errResp1).2.1 (by decide),
   (do_GET_amended (Response.ofHttp okHttpRespAcao)).2.2 okHttpRespAcao (by decide)
     (str "*") (by decide)⟩

/-- Claim C4 (code-bug evaluation): an HTTP-200 response whose JSON
status is not `"ERROR"` is supposed to yield Ok, but when the follow-up
cache-stats request fails, the `NameError` escaping
`show_cache_stats`'s except-handler is caught by `Backend.query`'s
generic handler and the call yields a ProxyError instead; with a working
cache-stats request the same call yields Ok as the claim says. -/
theorem backend_query_statsfail_divergence :
    (backend1.query (statsFailWorld okJsonHttpResp) (str "/?query=q") 10 none).http_response =
      none ∧
    (backend1.query (statsFailWorld okJsonHttpResp) (str "/?query=q") 10 none).error_data =
      some (jdumpErrorDict (mkProxyErrorDict (str "/?query=q")
        (genericErrMsg backend1 (str "name 'query_path' is not defined")))) ∧
    backend1.query (statsOkWorld okJsonHttpResp) (str "/?query=q") 10 none =
      { http_response := some okJsonHttpResp, error_data := none } := by
  decide

/-- Claim C10 (code-bug evaluation): an HTTP-200 response whose body does
not parse as JSON is forwarded as Ok — the parse exception is caught and
only logged — when the cache-stats follow-up succeeds; but when that
follow-up fails, the same `NameError` bug turns the call into a
ProxyError, against the claim's "for every call". -/
theorem backend_query_nonjson_divergence :
    backend1.query (statsOkWorld nonJsonHttpResp) (str "/?query=q") 10 none =
      { http_response := some nonJsonHttpResp, error_data := none } ∧
    (backend1.query (statsFailWorld nonJsonHttpResp) (str "/?query=q") 10 none).http_response =
      none := by
  decide

/-! ## Claim C8: the synthesised ProxyError body -/

/-- Any split of the fixed middle literal of the dumped error body gives
an infix of it. -/
theorem jdump_split (d : ErrorDict) (pre m post : Str)
    (h : str ", \"status\": \"ERROR\", \"resultsize\": \"0\", " ++
           str "\"time\": \x7b\"total\": \"0ms\", \"computeResult\": \"0ms\"\x7d, \"exception\": " =
         pre ++ m ++ post) :
    m <:+: jdumpErrorDict d := by
  refine ⟨str "\x7b\"query\": " ++ jdumpQVal d.query ++ pre,
          post ++ jsonStr d.exception ++ str "\x7d", ?_⟩
  have h2 : ∀ X : Str,
      pre ++ (m ++ (post ++ X)) =
        str ", \"status\": \"ERROR\", \"resultsize\": \"0\", " ++
          (str "\"time\": \x7b\"total\": \"0ms\", \"computeResult\": \"0ms\"\x7d, \"exception\": " ++ X) := by
    intro X
    rw [show str ", \"status\": \"ERROR\", \"resultsize\": \"0\", " ++
          (str "\"time\": \x7b\"total\": \"0ms\", \"computeResult\": \"0ms\"\x7d, \"exception\": " ++ X) =
        (str ", \"status\": \"ERROR\", \"resultsize\": \"0\", " ++
          str "\"time\": \x7b\"total\": \"0ms\", \"computeResult\": \"0ms\"\x7d, \"exception\": ") ++ X
      by simp [List.append_assoc], h]
    simp [List.append_assoc]
  simp only [jdumpErrorDict, List.append_assoc, h2]

/-- Claim C8: every ProxyError envelope carries the synthesised JSON
body: the `parse_qs` values of the original query under `"query"`,
`"ERROR"` under `"status"`, `"0"` under `"resultsize"`, the time object
with `"total"` and `"computeResult"`, and the non-empty exception string
`"QLever Proxy error: " + msg`. -/
theorem proxy_error_body_fields (query_path error_msg : Str) (qs : List Str)
    (hq : parseQsGet (query_path.drop 2) (str "query") = some qs) :
    ∃ d : ErrorDict,
      (Response.ofError query_path error_msg).http_response = none ∧
      (Response.ofError query_path error_msg).error_data = some (jdumpErrorDict d) ∧
      d.query = QVal.vals qs ∧
      d.exception = str "QLever Proxy error: " ++ error_msg ∧
      d.exception ≠ [] ∧
      str "\"status\": \"ERROR\"" <:+: jdumpErrorDict d ∧
      str "\"resultsize\": \"0\"" <:+: jdumpErrorDict d ∧
      str "\"time\": \x7b\"total\": \"0ms\", \"computeResult\": \"0ms\"\x7d" <:+: jdumpErrorDict d ∧
      jsonStr d.exception <:+: jdumpErrorDict d := by
  refine ⟨mkProxyErrorDict query_path error_msg, rfl, rfl, ?_, rfl, ?_, ?_, ?_, ?_, ?_⟩
  · simp [mkProxyErrorDict, hq]
  · show (str "QLever Proxy error: " ++ error_msg) ≠ []
    intro hfalse
    have h1 : str "QLever Proxy error: " = [] := (List.append_eq_nil.mp hfalse).1
    exact absurd h1 (by decide)
  · exact jdump_split _ (str ", ") (str "\"status\": \"ERROR\"")
      (str ", \"resultsize\": \"0\", \"time\": \x7b\"total\": \"0ms\", \"computeResult\": \"0ms\"\x7d, \"exception\": ")
      (by decide)
  · exact jdump_split _ (str ", \"status\": \"ERROR\", ") (str "\"resultsize\": \"0\"")
      (str ", \"time\": \x7b\"total\": \"0ms\", \"computeResult\": \"0ms\"\x7d, \"exception\": ")
      (by decide)
  · exact jdump_split _ (str ", \"status\": \"ERROR\", \"resultsize\": \"0\", ")
      (str "\"time\": \x7b\"total\": \"0ms\", \"computeResult\": \"0ms\"\x7d") (str ", \"exception\": ")
      (by decide)
  · refine ⟨str "\x7b\"query\": " ++ jdumpQVal (mkProxyErrorDict query_path error_msg).query ++
        str ", \"status\": \"ERROR\", \"resultsize\": \"0\", " ++
        str "\"time\": \x7b\"total\": \"0ms\", \"computeResult\": \"0ms\"\x7d, \"exception\": ",
      str "\x7d", ?_⟩
    simp [jdumpErrorDict, List.append_assoc]

/-- Witness for `proxy_error_body_fields`: a path whose single `query`
parameter decodes (plus- and percent-decoding) to `SELECT ?x`. -/
theorem proxy_error_body_fields_witness :
    ∃ d : ErrorDict,
      (Response.ofError (str "/?query=SELECT+%3Fx") (str "probe failed")).http_response = none ∧
      (Response.ofError (str "/?query=SELECT+%3Fx") (str "probe failed")).error_data =
        some (jdumpErrorDict d) ∧
      d.query = QVal.vals [str "SELECT ?x"] ∧
      d.exception = str "QLever Proxy error: " ++ str "probe failed" ∧
      d.exception ≠ [] ∧
      str "\"status\": \"ERROR\"" <:+: jdumpErrorDict d ∧
      str "\"resultsize\": \"0\"" <:+: jdumpErrorDict d ∧
      str "\"time\": \x7b\"total\": \"0ms\", \"computeResult\": \"0ms\"\x7d" <:+: jdumpErrorDict d ∧
      jsonStr d.exception <:+: jdumpErrorDict d :=
  proxy_error_body_fields (str "/?query=SELECT+%3Fx") (str "probe failed")
    [str "SELECT ?x"] (by decide)

/-- Claim C7: the source's placement agrees with the claim's formulas
(position 0 overwrites the slot `currentIndex + vars_added_before`;
positive `k` inserts at `currentIndex + vars_added_before + k` and
increments the counter; negative `p` inserts at `len + p + 1` without
incrementing, so `-1` appends at the end), and the position used is
`config.position` on the first success for the config and
`config.position_repeated` afterwards.  The index hypotheses keep the
inserts inside the list, where Python's `insert` does not clamp and the
slot assignment does not raise. -/
theorem placeNewVar_matches_claim (position : Int) (vi nva : Nat) (lst : List Str) (nv : Str)
    (h0 : position = 0 → vi + nva < lst.length)
    (hpos : 0 < position → (vi : Int) + nva + position ≤ lst.length)
    (hneg : position < 0 → 0 ≤ (lst.length : Int) + position + 1) :
    placeNewVar position vi nva lst nv = .ok (placeNewVarClaim position vi nva lst nv) ∧
    (position = -1 → placeNewVar position vi nva lst nv = .ok (lst ++ [nv], nva)) ∧
    (∀ c : ConfigForAddTriple, effectivePosition c 0 = c.position) ∧
    (∀ (c : ConfigForAddTriple) (n : Nat), n ≠ 0 → effectivePosition c n = c.position_repeated) := by
  refine ⟨?_, ?_, fun c => rfl, fun c n hn => by simp [effectivePosition, hn]⟩
  · rcases lt_trichotomy position 0 with hlt | heq | hgt
    · have hne : position ≠ 0 := by omega
      have hng : ¬ position > 0 := by omega
      have hge : 0 ≤ (lst.length : Int) + position + 1 := hneg hlt
      have hnn : ¬ ((lst.length : Int) + position + 1 < 0) := by omega
      have htn : ((lst.length : Int) + position + 1).toNat ≤ lst.length := by omega
      simp only [placeNewVar, placeNewVarClaim, if_neg hne, if_neg hng, pyInsert, if_neg hnn,
        Nat.min_eq_left htn]
    · subst heq
      have h := h0 rfl
      simp [placeNewVar, placeNewVarClaim, pySetIdx, h, Except.map]
    · have hne : position ≠ 0 := by omega
      have hle := hpos hgt
      have hnn : ¬ ((vi : Int) + ((nva + 1 : Nat) : Int) + position - 1 < 0) := by omega
      have hti : ((vi : Int) + ((nva + 1 : Nat) : Int) + position - 1).toNat =
          vi + nva + position.toNat := by omega
      have htn : vi + nva + position.toNat ≤ lst.length := by omega
      simp only [placeNewVar, placeNewVarClaim, if_neg hne, if_pos hgt, pyInsert, if_neg hnn,
        hti, Nat.min_eq_left htn]
  · intro hm1
    subst hm1
    have hne : (-1 : Int) ≠ 0 := by omega
    have hng : ¬ (-1 : Int) > 0 := by omega
    have hnn : ¬ ((lst.length : Int) + -1 + 1 < 0) := by omega
    have htn : ((lst.length : Int) + -1 + 1).toNat = lst.length := by omega
    simp only [placeNewVar, if_neg hne, if_neg hng, pyInsert, if_neg hnn, htn, min_self,
      List.insertIdx_length_self]

/-- Witness for `placeNewVar_matches_claim` at position `-1`: the new
variable lands at the end and the counter is unchanged. -/
theorem placeNewVar_matches_claim_witness :
    placeNewVar (-1) 0 0 [str "?x", str "?y"] (str "?z") =
      .ok ([str "?x", str "?y"] ++ [str "?z"], 0) :=
  (placeNewVar_matches_claim (-1) 0 0 [str "?x", str "?y"] (str "?z")
    (by omega) (by omega) (by decide)).2.1 rfl

/-! ## Probe bookkeeping lemmas (for claims C6 and C9) -/

/-- `renameStep` never touches the probe log. -/
theorem renameStep_probes (qns : QleverNameService) (vi : Nat) (vs vs' : VarState)
    (S S' : EnhState) (h : renameStep qns vi vs S = .ok (vs', S')) :
    S'.probes = S.probes := by
  unfold renameStep at h
  by_cases hc : qns.subject_var_suffix ≠ [] ∧ vs.var_has_been_renamed = false
  · rw [if_pos hc] at h
    try simp only [] at h
    cases hset : pySetIdx S.new_select_vars_list (vi + S.num_vars_added)
        (vs.original_var ++ qns.subject_var_suffix) with
    | error e =>
      rw [hset] at h
      exact Except.noConfusion h
    | ok nsvl =>
      rw [hset] at h
      try simp only [] at h
      cases hre : recompile (renamePattern vs.original_var) with
      | none =>
        rw [hre] at h
        try simp only [] at h
        exact Except.noConfusion h
      | some rpat =>
        rw [hre] at h
        try simp only [] at h
        by_cases hbs :
            ((vs.original_var ++ qns.subject_var_suffix).any fun c => c = '\\') = true
        · rw [if_pos hbs] at h
          exact Except.noConfusion h
        · rw [if_neg hbs] at h
          injection h with h2
          injection h2 with h3 h4
          rw [← h4]
  · rw [if_neg hc] at h
    injection h with h2
    injection h2 with h3 h4
    rw [← h4]

/-- `addTripleStep` never touches the probe log. -/
theorem addTripleStep_probes (qns : QleverNameService) (ci : Nat)
    (config : ConfigForAddTriple) (vi : Nat) (vs vs' : VarState) (S S' : EnhState)
    (h : addTripleStep qns ci config vi vs S = .ok (vs', S')) :
    S'.probes = S.probes := by
  unfold addTripleStep at h
  cases hr : renameStep qns vi vs S with
  | error e =>
    rw [hr] at h
    simp at h
  | ok p =>
    obtain ⟨vs1, S1⟩ := p
    rw [hr] at h
    have h1 : S1.probes = S.probes := renameStep_probes qns vi vs vs1 S S1 hr
    try simp only [] at h
    by_cases hassert : vs1.var = vs1.original_var ++ config.suffix
    · rw [if_pos hassert] at h
      exact Except.noConfusion h
    · rw [if_neg hassert] at h
      try simp only [] at h
      cases hpl : placeNewVar
          (effectivePosition config (S1.num_triples_added_per_config.getD ci 0)) vi
          S1.num_vars_added S1.new_select_vars_list (vs1.original_var ++ config.suffix) with
      | error e =>
        rw [hpl] at h
        exact Except.noConfusion h
      | ok p2 =>
        obtain ⟨nsvl, nva⟩ := p2
        rw [hpl] at h
        injection h with h2
        injection h2 with h3 h4
        rw [← h4]
        exact h1

/-- Every successful `stepConfig` leaves the probe log unchanged or
appends exactly one record, with pinning disabled. -/
theorem stepConfig_probes_shape (qns : QleverNameService) (w : World)
    (prefixes_list : List Str) (svlLen vi ci : Nat) (config : ConfigForAddTriple)
    (vs vs' : VarState) (S S' : EnhState)
    (h : stepConfig qns w prefixes_list svlLen vi ci config vs S = .ok (vs', S')) :
    S'.probes = S.probes ∨
      S'.probes = S.probes ++
        [⟨str "/?query=" ++ pyQuote (mkTestQuery prefixes_list vs.var config S), false⟩] := by
  unfold stepConfig at h
  by_cases hb : positionFilterSkips config svlLen vi = true
  · rw [if_pos hb] at h
    injection h with h2
    injection h2 with h3 h4
    left
    rw [← h4]
  · rw [if_neg hb] at h
    cases hec : existenceCheck vs.var config S.body_string with
    | error e =>
      rw [hec] at h
      exact Except.noConfusion h
    | ok found =>
      rw [hec] at h
      cases found with
      | true =>
        try simp only [] at h
        injection h with h2
        injection h2 with h3 h4
        left
        rw [← h4]
      | false =>
        try simp only [] at h
        cases hresp : (qns.backend.query w
            (str "/?query=" ++ pyQuote (mkTestQuery prefixes_list vs.var config S))
            qns.backend.timeout_seconds (some false)).http_response with
        | none =>
          rw [hresp] at h
          try simp only [] at h
          injection h with h2
          injection h2 with h3 h4
          right
          rw [← h4]
        | some hr =>
          rw [hresp] at h
          try simp only [] at h
          by_cases hutf : hr.data.utf8_ok = false
          · rw [if_pos hutf] at h
            exact Except.noConfusion h
          · rw [if_neg hutf] at h
            try simp only [] at h
            by_cases hadd : (match findResultsize hr.data.raw with
                | some n => decide (n > 0)
                | none => false) = true
            · rw [if_pos hadd] at h
              right
              exact addTripleStep_probes qns ci config vi vs vs' _ S' h
            · rw [if_neg hadd] at h
              injection h with h2
              injection h2 with h3 h4
              right
              rw [← h4]

/-- When the position filter passes and no existing triple is found, a
successful `stepConfig` appends exactly the probe built from the current
state, with pinning disabled. -/
theorem stepConfig_probe_appended (qns : QleverNameService) (w : World)
    (prefixes_list : List Str) (svlLen vi ci : Nat) (config : ConfigForAddTriple)
    (vs vs' : VarState) (S S' : EnhState)
    (hskip : positionFilterSkips config svlLen vi = false)
    (hex : existenceCheck vs.var config S.body_string = .ok false)
    (h : stepConfig qns w prefixes_list svlLen vi ci config vs S = .ok (vs', S')) :
    S'.probes = S.probes ++
      [⟨str "/?query=" ++ pyQuote (mkTestQuery prefixes_list vs.var config S), false⟩] := by
  unfold stepConfig at h
  rw [hskip, hex] at h
  simp only [Bool.false_eq_true, if_false] at h
  cases hresp : (qns.backend.query w
      (str "/?query=" ++ pyQuote (mkTestQuery prefixes_list vs.var config S))
      qns.backend.timeout_seconds (some false)).http_response with
  | none =>
    rw [hresp] at h
    try simp only [] at h
    injection h with h2
    injection h2 with h3 h4
    rw [← h4]
  | some hr =>
    rw [hresp] at h
    try simp only [] at h
    by_cases hutf : hr.data.utf8_ok = false
    · rw [if_pos hutf] at h
      exact Except.noConfusion h
    · rw [if_neg hutf] at h
      try simp only [] at h
      by_cases hadd : (match findResultsize hr.data.raw with
          | some n => decide (n > 0)
          | none => false) = true
      · rw [if_pos hadd] at h
        exact addTripleStep_probes qns ci config vi vs vs' _ S' h
      · rw [if_neg hadd] at h
        injection h with h2
        injection h2 with h3 h4
        rw [← h4]

/-- `stepConfig` preserves `probesPinFalse`. -/
theorem stepConfig_pin (qns : QleverNameService) (w : World) (prefixes_list : List Str)
    (svlLen vi ci : Nat) (config : ConfigForAddTriple) (vs vs' : VarState) (S S' : EnhState)
    (h : stepConfig qns w prefixes_list svlLen vi ci config vs S = .ok (vs', S'))
    (hp : probesPinFalse S.probes) : probesPinFalse S'.probes := by
  rcases stepConfig_probes_shape qns w prefixes_list svlLen vi ci config vs vs' S S' h with
    hs | hs
  · rw [hs]; exact hp
  · rw [hs]
    intro r hr
    rcases List.mem_append.mp hr with hmem | hmem
    · exact hp r hmem
    · rcases List.mem_singleton.mp hmem with rfl
      rfl

/-- `stepConfigs` preserves `probesPinFalse`. -/
theorem stepConfigs_pin (qns : QleverNameService) (w : World) (prefixes_list : List Str)
    (svlLen vi : Nat) :
    ∀ (ci : Nat) (configs : List ConfigForAddTriple) (vs vs' : VarState) (S S' : EnhState),
      stepConfigs qns w prefixes_list svlLen vi ci configs vs S = .ok (vs', S') →
      probesPinFalse S.probes → probesPinFalse S'.probes := by
  intro ci configs
  induction configs generalizing ci with
  | nil =>
    intro vs vs' S S' h hp
    simp only [stepConfigs, Except.ok.injEq, Prod.mk.injEq] at h
    rw [← h.2]
    exact hp
  | cons c rest ih =>
    intro vs vs' S S' h hp
    unfold stepConfigs at h
    cases hs : stepConfig qns w prefixes_list svlLen vi ci c vs S with
    | error e => rw [hs] at h; simp at h
    | ok p =>
      obtain ⟨vs2, S2⟩ := p
      rw [hs] at h
      exact ih (ci + 1) vs2 vs' S2 S' h
        (stepConfig_pin qns w prefixes_list svlLen vi ci c vs vs2 S S2 hs hp)

/-- `stepVars` preserves `probesPinFalse`. -/
theorem stepVars_pin (qns : QleverNameService) (w : World) (prefixes_list : List Str)
    (svlLen : Nat) :
    ∀ (vi : Nat) (vars : List Str) (S S' : EnhState),
      stepVars qns w prefixes_list svlLen vi vars S = .ok S' →
      probesPinFalse S.probes → probesPinFalse S'.probes := by
  intro vi vars
  induction vars generalizing vi with
  | nil =>
    intro S S' h hp
    simp only [stepVars, Except.ok.injEq] at h
    rw [← h]
    exact hp
  | cons v rest ih =>
    intro S S' h hp
    unfold stepVars at h
    cases hs : stepConfigs qns w prefixes_list svlLen vi 0 qns.configs_for_add_triple
        ⟨v, false, v⟩ S with
    | error e => rw [hs] at h; simp at h
    | ok p =>
      obtain ⟨vs2, S2⟩ := p
      rw [hs] at h
      exact ih (vi + 1) S2 S' h
        (stepConfigs_pin qns w prefixes_list svlLen vi 0 qns.configs_for_add_triple
          ⟨v, false, v⟩ vs2 S S2 hs hp)

/-- Every probe of a successful `enhance_query` run is submitted with
pinning disabled. -/
theorem enhance_pin (qns : QleverNameService) (w : World) (q : Str) (out : EnhOut)
    (h : enhance_query_full qns w q = .ok out) : probesPinFalse out.state.probes := by
  unfold enhance_query_full at h
  cases hq : get_query_parts q with
  | none =>
    rw [hq] at h
    try simp only [] at h
    injection h with h2
    rw [← h2]
    intro r hr
    simp [emptyEnhState] at hr
  | some parts =>
    rw [hq] at h
    try simp only [] at h
    cases hs : stepVars qns w parts.prefixes_list parts.select_vars_list.length 0
        parts.select_vars_list
        ⟨parts.select_vars_list, [], 0, List.replicate qns.configs_for_add_triple.length 0,
         parts.body_string, parts.group_by_string, parts.select_vars_string, []⟩ with
    | error e =>
      rw [hs] at h
      exact Except.noConfusion h
    | ok S =>
      rw [hs] at h
      try simp only [] at h
      injection h with h2
      rw [← h2]
      exact stepVars_pin qns w parts.prefixes_list parts.select_vars_list.length 0
        parts.select_vars_list _ S hs (by intro r hr; simp at hr)

/-! ## Claim C6: the shape and pinning of probe queries -/

/-- Claim C6: when a (variable, config) pair reaches the probing step
(the position filter passes and no existing name triple is found), the
probe submitted is built from the current state — the same prefixes and
(possibly renamed) body and inner projection, an outer SELECT of the
single fresh variable `var + suffix + "_test"`, the single test triple,
`ORDER BY var` appended after the GROUP BY clause, and a `LIMIT 1`
footer — and it is recorded with `pin_results_override = False`;
under that flag `Backend.query` appends no `pinresult`/`pinsubtrees`
parameters even when the backend defaults to pinning; and every probe of
every successful run carries the flag false. -/
theorem probe_query_shape (qns : QleverNameService) (w : World) (prefixes_list : List Str)
    (svlLen vi ci : Nat) (config : ConfigForAddTriple) (vs vs' : VarState) (S S' : EnhState)
    (hskip : positionFilterSkips config svlLen vi = false)
    (hex : existenceCheck vs.var config S.body_string = .ok false)
    (hstep : stepConfig qns w prefixes_list svlLen vi ci config vs S = .ok (vs', S')) :
    S'.probes = S.probes ++
      [⟨str "/?query=" ++ pyQuote (make_sparql_query_from_parts prefixes_list
          [vs.var ++ config.suffix ++ str "_test"]
          [str "  " ++ vs.var ++ str " " ++ config.predicate ++ str " " ++
            (vs.var ++ config.suffix ++ str "_test")]
          S.select_vars_string S.body_string
          (S.group_by_string ++ str "ORDER BY " ++ vs.var ++ str " ") (str "LIMIT 1")),
        false⟩] ∧
    (∀ (b : Backend) (qp : Str), b.full_path qp (some false) = b.base_path ++ qp) ∧
    (∀ (q : Str) (out : EnhOut), enhance_query_full qns w q = .ok out →
      ∀ r ∈ out.state.probes, r.pin_results_override = false) := by
  refine ⟨?_, ?_, ?_⟩
  · have hp := stepConfig_probe_appended qns w prefixes_list svlLen vi ci config vs vs' S S'
      hskip hex hstep
    rw [hp]
    rfl
  · intro b qp
    simp [Backend.full_path]
  · intro q out h r hr
    exact enhance_pin qns w q out h r hr

/-- Witness for `probe_query_shape`: the first probe of `q9` in the
all-negative world `w9no`. -/
theorem probe_query_shape_witness :
    S9post.probes = S9init.probes ++
      [⟨str "/?query=" ++ pyQuote (make_sparql_query_from_parts [[]]
          [vs9x.var ++ config9.suffix ++ str "_test"]
          [str "  " ++ vs9x.var ++ str " " ++ config9.predicate ++ str " " ++
            (vs9x.var ++ config9.suffix ++ str "_test")]
          S9init.select_vars_string S9init.body_string
          (S9init.group_by_string ++ str "ORDER BY " ++ vs9x.var ++ str " ") (str "LIMIT 1")),
        false⟩] ∧
    (∀ (b : Backend) (qp : Str), b.full_path qp (some false) = b.base_path ++ qp) ∧
    (∀ (q : Str) (out : EnhOut), enhance_query_full qns9 w9no q = .ok out →
      ∀ r ∈ out.state.probes, r.pin_results_override = false) :=
  probe_query_shape qns9 w9no [[]] 1 0 0 config9 vs9x vs9x S9init S9post
    (by decide) (by decide) (by decide)

/-! ## Claim C9: idempotence of the enhancer -/

/-- Claim C9 counterexample: with a deterministic backend that answers
every probe positively, the first run on `q9` adds the triple
`?x_id <p:n> ?x_nm` (which matches the config's existence regex — the
claim's assumption holds, witnessed by the second conjunct on the second
run's body); yet running the enhancer on its own output adds a further
triple, for the freshly introduced name variable `?x_nm`. -/
theorem enhance_not_idempotent_counterexample :
    (match enhance_query_full qns9 w9 q9 with
     | .ok o => (o.query, o.state.new_triples_list)
     | .error _ => ([], [])) = (q9out, [str "  ?x_id <p:n> ?x_nm"]) ∧
    existenceCheck (str "?x_id") config9 S9body.body_string = .ok true ∧
    (match enhance_query_full qns9 w9 q9out with
     | .ok o => o.state.new_triples_list
     | .error _ => []) = [str "  ?x_nm_id <p:n> ?x_nm_nm"] := by
  decide

/-- Claim C9 (amended): re-running the enhancer adds no triple for a
(variable, config) pair whose (possibly renamed) body already contains a
matching name triple — the existence check skips the pair with no probe
and no state change, so the subject variables enhanced by the first run
are not enhanced again; but the name variables freshly introduced by the
first run may themselves be probed and may acquire further triples. -/
theorem existing_triple_skips (qns : QleverNameService) (w : World)
    (prefixes_list : List Str) (svlLen vi ci : Nat) (config : ConfigForAddTriple)
    (vs : VarState) (S : EnhState)
    (hex : existenceCheck vs.var config S.body_string = .ok true) :
    stepConfig qns w prefixes_list svlLen vi ci config vs S = .ok (vs, S) := by
  unfold stepConfig
  by_cases hb : positionFilterSkips config svlLen vi = true
  · rw [if_pos hb]
  · rw [if_neg hb, hex]

/-- Witness for `existing_triple_skips`: on the second run's state, the
pair `(?x_id, config9)` is skipped without any probe. -/
theorem existing_triple_skips_witness :
    stepConfig qns9 w9 [[]] 2 0 0 config9 ⟨str "?x_id", false, str "?x_id"⟩ S9body =
      .ok (⟨str "?x_id", false, str "?x_id"⟩, S9body) :=
  existing_triple_skips qns9 w9 [[]] 2 0 0 config9 ⟨str "?x_id", false, str "?x_id"⟩ S9body
    (by decide)

/-- Claim C5 counterexample: with an empty subject-variable suffix and an
empty config suffix, a successful probe reaches
`assert(var != new_var)` with `var == new_var` and `enhance_query`
raises `AssertionError` instead of returning a string. -/
theorem enhance_query_raises_counterexample :
    enhance_query qns5 w9 q9 = .error .assertionError := by decide

/-- `pySetIdx` succeeds on an in-range index. -/
theorem pySetIdx_ok (l : List Str) (i : Nat) (x : Str) (h : i < l.length) :
    pySetIdx l i x = .ok (l.set i x) := by
  simp [pySetIdx, h]

/-- `pyInsert` always grows the list by one (Python's `insert` clamps). -/
theorem pyInsert_length (l : List Str) (i : Int) (x : Str) :
    (pyInsert l i x).length = l.length + 1 := by
  unfold pyInsert
  by_cases hi : i < 0
  · rw [if_pos hi]
    have h1 : ((l.length : Int) + i).toNat ≤ l.length := by omega
    exact List.length_insertIdx _ _ h1
  · rw [if_neg hi]
    exact List.length_insertIdx _ _ (Nat.min_le_right _ _)

/-- `placeNewVar` succeeds when the overwrite slot is in range, and the
counter grows at most as much as the list. -/
theorem placeNewVar_ok (position : Int) (vi nva : Nat) (lst : List Str) (nv : Str)
    (h : vi + nva < lst.length) :
    ∃ lst' nva', placeNewVar position vi nva lst nv = .ok (lst', nva') ∧
      lst.length + nva' ≤ lst'.length + nva ∧ lst.length ≤ lst'.length := by
  rcases lt_trichotomy position 0 with hlt | heq | hgt
  · have hne : position ≠ 0 := by omega
    have hng : ¬ position > 0 := by omega
    refine ⟨pyInsert lst ((lst.length : Int) + position + 1) nv, nva, ?_, ?_, ?_⟩
    · simp only [placeNewVar, if_neg hne, if_neg hng]
    · rw [pyInsert_length]
      omega
    · rw [pyInsert_length]
      omega
  · subst heq
    refine ⟨lst.set (vi + nva) nv, nva, ?_, ?_, ?_⟩
    · simp only [placeNewVar, if_pos rfl]
      rw [pySetIdx_ok _ _ _ h]
      rfl
    · rw [List.length_set]
    · rw [List.length_set]
  · have hne : position ≠ 0 := by omega
    refine ⟨pyInsert lst ((vi : Int) + ((nva + 1 : Nat) : Int) + position - 1) nv, nva + 1,
      ?_, ?_, ?_⟩
    · simp only [placeNewVar, if_neg hne, if_pos hgt]
    · rw [pyInsert_length]
      omega
    · rw [pyInsert_length]
      omega

/-- `renameStep` succeeds under the pattern conditions and preserves the
invariants. -/
theorem renameStep_ok (qns : QleverNameService) (svlLen vi : Nat) (vs : VarState)
    (S : EnhState) (hvinv : VarInv qns vs)
    (hpat : recompile (renamePattern vs.original_var) ≠ none)
    (hbs : ((vs.original_var ++ qns.subject_var_suffix).any fun c => c = '\\') = false)
    (hsi : svlLen + S.num_vars_added ≤ S.new_select_vars_list.length)
    (hvi : vi < svlLen) :
    ∃ vs' S', renameStep qns vi vs S = .ok (vs', S') ∧
      VarInv qns vs' ∧ vs'.original_var = vs.original_var ∧
      (qns.subject_var_suffix ≠ [] → vs'.var_has_been_renamed = true) ∧
      (qns.subject_var_suffix = [] → vs' = vs) ∧
      S'.new_select_vars_list.length = S.new_select_vars_list.length ∧
      S'.num_vars_added = S.num_vars_added := by
  unfold renameStep
  by_cases hc : qns.subject_var_suffix ≠ [] ∧ vs.var_has_been_renamed = false
  · rw [if_pos hc]
    try simp only []
    rw [pySetIdx_ok _ _ _ (by omega)]
    try simp only []
    cases hre : recompile (renamePattern vs.original_var) with
    | none => exact absurd hre hpat
    | some rpat =>
      try simp only []
      rw [hbs]
      simp only [Bool.false_eq_true, if_false]
      refine ⟨_, _, rfl, ⟨?_, ?_⟩, rfl, fun _ => rfl, fun he => absurd he hc.1, ?_, rfl⟩
      · intro hfalse
        exact absurd hfalse (by simp)
      · intro _
        exact ⟨rfl, hc.1⟩
      · exact List.length_set _ _ _
  · rw [if_neg hc]
    refine ⟨vs, S, rfl, hvinv, rfl, ?_, fun _ => rfl, rfl, rfl⟩
    intro hne
    cases hrn : vs.var_has_been_renamed with
    | false => exact absurd ⟨hne, hrn⟩ hc
    | true => rfl

/-- `addTripleStep` succeeds under the pattern and suffix conditions and
preserves the invariants. -/
theorem addTripleStep_ok (qns : QleverNameService) (ci : Nat)
    (config : ConfigForAddTriple) (vi svlLen : Nat) (vs : VarState) (S : EnhState)
    (hvinv : VarInv qns vs)
    (hpat : recompile (renamePattern vs.original_var) ≠ none)
    (hbs : ((vs.original_var ++ qns.subject_var_suffix).any fun c => c = '\\') = false)
    (hsfx : config.suffix ≠ qns.subject_var_suffix)
    (hsi : svlLen + S.num_vars_added ≤ S.new_select_vars_list.length)
    (hvi : vi < svlLen) :
    ∃ vs' S', addTripleStep qns ci config vi vs S = .ok (vs', S') ∧
      VarInv qns vs' ∧ vs'.original_var = vs.original_var ∧
      svlLen + S'.num_vars_added ≤ S'.new_select_vars_list.length := by
  obtain ⟨vs1, S1, hr, hvinv1, horig1, hren1, hid1, hlen1, hnva1⟩ :=
    renameStep_ok qns svlLen vi vs S hvinv hpat hbs hsi hvi
  unfold addTripleStep
  rw [hr]
  try simp only []
  have hassert : ¬ (vs1.var = vs1.original_var ++ config.suffix) := by
    by_cases hsvs : qns.subject_var_suffix = []
    · have hvs1 : vs1 = vs := hid1 hsvs
      subst hvs1
      have hrn : vs1.var_has_been_renamed = false := by
        cases hrn : vs1.var_has_been_renamed with
        | false => rfl
        | true => exact absurd hsvs (hvinv1.2 hrn).2
      have hvv : vs1.var = vs1.original_var := hvinv1.1 hrn
      rw [hvv]
      intro heq
      have hsfx0 : config.suffix = [] := by
        have hlen := congrArg List.length heq
        simp at hlen
        exact hlen
      rw [hsvs] at hsfx
      exact hsfx hsfx0
    · have hren := hren1 hsvs
      have hv1 : vs1.var = vs1.original_var ++ qns.subject_var_suffix := (hvinv1.2 hren).1
      rw [hv1]
      intro heq
      exact hsfx (List.append_cancel_left heq).symm
  rw [if_neg hassert]
  try simp only []
  obtain ⟨lst', nva', hpl, hineq, hgrow⟩ :=
    placeNewVar_ok (effectivePosition config (S1.num_triples_added_per_config.getD ci 0))
      vi S1.num_vars_added S1.new_select_vars_list (vs1.original_var ++ config.suffix)
      (by omega)
  rw [hpl]
  try simp only []
  refine ⟨vs1, _, rfl, hvinv1, horig1, ?_⟩
  simp only []
  omega

/-- An Ok envelope produced by `Response.ofHttp` carries exactly the
response it was built from. -/
theorem ofHttp_http_response (resp hr : HTTPResponse)
    (h : (Response.ofHttp resp).http_response = some hr) : resp = hr := by
  unfold Response.ofHttp at h
  by_cases hu : resp.data.utf8_ok = true
  · rw [if_pos hu] at h
    cases hj : resp.data.json with
    | obj fields =>
      rw [hj] at h
      try simp only [] at h
      by_cases hs2 : fields.lookup (str "status") = some (JVal.s (str "ERROR"))
      · rw [if_pos hs2] at h
        exact Option.noConfusion h
      · rw [if_neg hs2] at h
        exact Option.some.inj h
    | notDict =>
      rw [hj] at h
      try simp only [] at h
      exact Option.some.inj h
    | fail =>
      rw [hj] at h
      try simp only [] at h
      exact Option.some.inj h
  · rw [if_neg hu] at h
    exact Option.some.inj h

/-- When `Backend.query` returns an Ok envelope, the network delivered
exactly that upstream response at the full request path. -/
theorem backend_query_http_from_net (b : Backend) (w : World) (qp : Str) (t : Nat)
    (po : Option Bool) (hr : HTTPResponse)
    (h : (b.query w qp t po).http_response = some hr) :
    w.net (b.full_path qp po) = .success hr := by
  unfold Backend.query at h
  cases hn : w.net (b.full_path qp po) with
  | success resp =>
    rw [hn] at h
    try simp only [] at h
    by_cases hst : resp.status = 200
    · rw [if_pos hst] at h
      by_cases hshow : ((b.pin_results || b.always_show_cache_stats) && po.getD true) = true
      · rw [if_pos hshow] at h
        unfold Backend.show_cache_stats at h
        by_cases hso : w.statsOk = true
        · rw [if_pos hso] at h
          try simp only [] at h
          rw [ofHttp_http_response resp hr h]
        · rw [if_neg hso] at h
          try simp only [] at h
          exact absurd h (by simp [Response.ofError])
      · rw [if_neg hshow] at h
        rw [ofHttp_http_response resp hr h]
    · rw [if_neg hst] at h
      exact absurd h (by simp [Response.ofError])
  | sockTimeout =>
    rw [hn] at h
    exact absurd h (by simp [Response.ofError])
  | readTimeout =>
    rw [hn] at h
    exact absurd h (by simp [Response.ofError])
  | maxRetry =>
    rw [hn] at h
    exact absurd h (by simp [Response.ofError])
  | failure m =>
    rw [hn] at h
    exact absurd h (by simp [Response.ofError])

/-- `stepConfig` succeeds under the pattern, suffix and decoding
conditions and preserves the invariants. -/
theorem stepConfig_ok (qns : QleverNameService) (w : World) (prefixes_list : List Str)
    (svlLen vi ci : Nat) (config : ConfigForAddTriple) (vs : VarState) (S : EnhState)
    (hvinv : VarInv qns vs)
    (hex1 : recompile (existPattern vs.original_var config) ≠ none)
    (hex2 : recompile (existPattern (vs.original_var ++ qns.subject_var_suffix) config) ≠ none)
    (hpat : recompile (renamePattern vs.original_var) ≠ none)
    (hbs : ((vs.original_var ++ qns.subject_var_suffix).any fun c => c = '\\') = false)
    (hsfx : config.suffix ≠ qns.subject_var_suffix)
    (hnet : ∀ p r, w.net p = NetOutcome.success r → r.data.utf8_ok = true)
    (hsi : svlLen + S.num_vars_added ≤ S.new_select_vars_list.length)
    (hvi : vi < svlLen) :
    ∃ vs' S', stepConfig qns w prefixes_list svlLen vi ci config vs S = .ok (vs', S') ∧
      VarInv qns vs' ∧ vs'.original_var = vs.original_var ∧
      svlLen + S'.num_vars_added ≤ S'.new_select_vars_list.length := by
  have hvar : recompile (existPattern vs.var config) ≠ none := by
    cases hrn : vs.var_has_been_renamed with
    | false =>
      rw [hvinv.1 hrn]
      exact hex1
    | true =>
      rw [(hvinv.2 hrn).1]
      exact hex2
  unfold stepConfig
  by_cases hb : positionFilterSkips config svlLen vi = true
  · rw [if_pos hb]
    exact ⟨vs, S, rfl, hvinv, rfl, hsi⟩
  · rw [if_neg hb]
    cases hc : recompile (existPattern vs.var config) with
    | none => exact absurd hc hvar
    | some pat =>
      have hec : existenceCheck vs.var config S.body_string =
          .ok (research pat S.body_string) := by
        unfold existenceCheck
        rw [hc]
      rw [hec]
      cases hres : research pat S.body_string with
      | true =>
        exact ⟨vs, S, rfl, hvinv, rfl, hsi⟩
      | false =>
        try simp only []
        cases hresp : (qns.backend.query w (str "/?query=" ++
            pyQuote (mkTestQuery prefixes_list vs.var config S))
            qns.backend.timeout_seconds (some false)).http_response with
        | none =>
          exact ⟨vs, _, rfl, hvinv, rfl, hsi⟩
        | some hr =>
          have hu : hr.data.utf8_ok = true :=
            hnet _ hr (backend_query_http_from_net _ w _ _ _ hr hresp)
          simp only []
          rw [if_neg (by simp [hu])]
          cases hadd : (match findResultsize hr.data.raw with
              | some n => decide (n > 0)
              | none => false) with
          | false =>
            rw [if_neg (by simp)]
            exact ⟨vs, _, rfl, hvinv, rfl, hsi⟩
          | true =>
            rw [if_pos rfl]
            exact addTripleStep_ok qns ci config vi svlLen vs _ hvinv hpat hbs hsfx hsi hvi

/-- The inner config loop succeeds under the per-config conditions. -/
theorem stepConfigs_ok (qns : QleverNameService) (w : World) (prefixes_list : List Str)
    (svlLen vi : Nat)
    (hnet : ∀ p r, w.net p = NetOutcome.success r → r.data.utf8_ok = true)
    (hvi : vi < svlLen) :
    ∀ (configs : List ConfigForAddTriple) (ci : Nat) (vs : VarState) (S : EnhState),
      VarInv qns vs →
      (∀ c ∈ configs, c.suffix ≠ qns.subject_var_suffix ∧
        recompile (existPattern vs.original_var c) ≠ none ∧
        recompile (existPattern (vs.original_var ++ qns.subject_var_suffix) c) ≠ none) →
      recompile (renamePattern vs.original_var) ≠ none →
      ((vs.original_var ++ qns.subject_var_suffix).any fun c => c = '\\') = false →
      svlLen + S.num_vars_added ≤ S.new_select_vars_list.length →
      ∃ vs' S', stepConfigs qns w prefixes_list svlLen vi ci configs vs S = .ok (vs', S') ∧
        svlLen + S'.num_vars_added ≤ S'.new_select_vars_list.length := by
  intro configs
  induction configs with
  | nil =>
    intro ci vs S hvinv hcs hpat hbs hsi
    exact ⟨vs, S, rfl, hsi⟩
  | cons c rest ih =>
    intro ci vs S hvinv hcs hpat hbs hsi
    obtain ⟨vs1, S1, hstep, hvinv1, horig1, hsi1⟩ :=
      stepConfig_ok qns w prefixes_list svlLen vi ci c vs S hvinv
        (hcs c (by simp)).2.1 (hcs c (by simp)).2.2 hpat hbs (hcs c (by simp)).1 hnet hsi hvi
    unfold stepConfigs
    rw [hstep]
    obtain ⟨vs', S', hrest, hsi'⟩ := ih (ci + 1) vs1 S1 hvinv1
      (by
        intro c2 hc2
        rw [horig1]
        exact hcs c2 (by simp [hc2]))
      (by rw [horig1]; exact hpat)
      (by rw [horig1]; exact hbs)
      hsi1
    exact ⟨vs', S', hrest, hsi'⟩

/-- The outer variable loop succeeds under the per-variable conditions. -/
theorem stepVars_ok (qns : QleverNameService) (w : World) (prefixes_list : List Str)
    (svlLen : Nat)
    (hnet : ∀ p r, w.net p = NetOutcome.success r → r.data.utf8_ok = true)
    (hsfx : ∀ c ∈ qns.configs_for_add_triple, c.suffix ≠ qns.subject_var_suffix) :
    ∀ (vars : List Str) (vi : Nat) (S : EnhState),
      vi + vars.length = svlLen →
      (∀ v ∈ vars, VarPatternsOk qns v) →
      svlLen + S.num_vars_added ≤ S.new_select_vars_list.length →
      ∃ S', stepVars qns w prefixes_list svlLen vi vars S = .ok S' := by
  intro vars
  induction vars with
  | nil =>
    intro vi S hlen hv hsi
    exact ⟨S, rfl⟩
  | cons v rest ih =>
    intro vi S hlen hv hsi
    have hvp := hv v (by simp)
    obtain ⟨vs', S1, hsteps, hsi1⟩ :=
      stepConfigs_ok qns w prefixes_list svlLen vi hnet (by simp at hlen; omega)
        qns.configs_for_add_triple 0 ⟨v, false, v⟩ S
        ⟨fun _ => rfl, fun htrue => absurd htrue (by simp)⟩
        (by
          intro c2 hc2
          exact ⟨hsfx c2 hc2, (hvp.1 c2 hc2).1, (hvp.1 c2 hc2).2⟩)
        hvp.2.1 hvp.2.2 hsi
    unfold stepVars
    rw [hsteps]
    exact ih (vi + 1) S1 (by simp at hlen ⊢; omega) (fun v2 hv2 => hv v2 (by simp [hv2])) hsi1

/-- Claim C5 (amended): `enhance_query` returns a string without raising
provided (a) every config suffix differs from the subject-variable suffix
(otherwise the `assert` can fire, as the counterexample shows), (b) the
patterns built from each projected variable compile and the renamed
variables contain no backslash (otherwise `re.error` propagates), and
(c) successful probe responses decode as UTF-8 (otherwise the `decode`
outside the try raises); and, unconditionally, when the parsing regex
fails to match, the returned string equals the input query unchanged. -/
theorem enhance_query_amended (qns : QleverNameService) (w : World) (sparql_query : Str)
    (hsfx : ∀ c ∈ qns.configs_for_add_triple, c.suffix ≠ qns.subject_var_suffix)
    (hvars : ∀ parts, get_query_parts sparql_query = some parts →
      ∀ v ∈ parts.select_vars_list, VarPatternsOk qns v)
    (hnet : ∀ p r, w.net p = NetOutcome.success r → r.data.utf8_ok = true) :
    (∃ s, enhance_query qns w sparql_query = .ok s) ∧
    (get_query_parts sparql_query = none →
      enhance_query qns w sparql_query = .ok sparql_query) := by
  constructor
  · unfold enhance_query enhance_query_full
    cases hq : get_query_parts sparql_query with
    | none => exact ⟨sparql_query, rfl⟩
    | some parts =>
      try simp only []
      obtain ⟨S', hsv⟩ := stepVars_ok qns w parts.prefixes_list
        parts.select_vars_list.length hnet hsfx parts.select_vars_list 0
        ⟨parts.select_vars_list, [], 0, List.replicate qns.configs_for_add_triple.length 0,
         parts.body_string, parts.group_by_string, parts.select_vars_string, []⟩
        (by simp) (hvars parts hq) (by simp)
      rw [hsv]
      exact ⟨_, rfl⟩
  · intro hq
    unfold enhance_query enhance_query_full
    rw [hq]
    rfl

/-- Witness for `enhance_query_amended` on `q9` with `qns9` and the
all-negative world. -/
theorem enhance_query_amended_witness :
    (∃ s, enhance_query qns9 w9no q9 = .ok s) ∧
    (get_query_parts q9 = none → enhance_query qns9 w9no q9 = .ok q9) :=
  enhance_query_amended qns9 w9no q9 (by decide)
    (by
      intro parts hp v hv
      have h9 : get_query_parts q9 =
          some ⟨[[]], str "?x", [str "?x"], str "?x <a:b> ?y", [], []⟩ := by decide
      rw [h9] at hp
      injection hp with hp2
      subst hp2
      have hv' := List.mem_singleton.mp hv
      subst hv'
      unfold VarPatternsOk
      decide)
    (by
      intro p r h
      cases h
      rfl)

end QleverProxy
